import Mathlib

/-!
Shallow embedding of `caffe2/operators/hip/local_response_normalization_op_miopen.cc`.

The file under verification is a thin adapter around the MIOpen vendor library:
two operators (`MIOPEN_LRNOP`, forward LRN; `MIOPENLRNGradientOp`, LRN gradient)
that marshal tensor shapes and scalar hyperparameters into MIOpen descriptor
objects, invoke the vendor forward/backward entry points, and propagate vendor
error codes as fatal failures.

The vendor library itself is opaque: it is modelled as a structure `MiopenLib`
of response functions (a status code and result data for each entry point),
universally quantified in the theorems.  Each adapter function is embedded as a
Lean function that returns, besides its result, the list of vendor-call events
it performed (`Event`), so that call order, call arguments and status handling
are all observable in the logic.
-/

namespace Caffe2MiopenLRN

/-- MIOpen / HIP status codes; `0` is `miopenStatusSuccess` / `hipSuccess`. -/
abbrev Status := Nat

/-- Element types a caffe2 tensor can carry, as far as this file can observe
them: `float` (the only supported one) and anything else. -/
inductive DType where
  | float
  | other
deriving DecidableEq, Repr

/-- A caffe2 tensor: its shape, the element type of its contents, and its raw
element data (element values are opaque to the adapter, so they are modelled as
integers). -/
structure Tensor where
  dims : List Nat
  dtype : DType
  data : List Int
deriving DecidableEq, Repr

/-- `TensorImpl::dim32(i)`: the `i`-th dimension. The adapter only calls it
under the 4-dimensional precondition, so the default value never matters. -/
def Tensor.dim32 (t : Tensor) (i : Nat) : Nat := t.dims.getD i 0

/-- `TensorImpl::size()`: number of elements, the product of the dims. -/
def Tensor.numElems (t : Tensor) : Nat := t.dims.foldl (· * ·) 1

/-- `Tensor::ResizeLike(src)`: the tensor takes `src`'s shape; its contents are
not meaningfully initialised by the resize itself. -/
def Tensor.resizeLike (t src : Tensor) : Tensor := { t with dims := src.dims }

/-- `miopenLRNMode_t`. The adapter always uses `miopenLRNCrossChannel`. -/
inductive LRNMode where
  | crossChannel
  | withinChannel
deriving DecidableEq, Repr

/-- Contents of a `miopenLRNDescriptor_t` after `miopenSetLRNDescriptor`:
mode and the scalar hyperparameters. Scalars of C type `float` are carried,
never computed with, so they are modelled as rationals. -/
structure LRNParams where
  mode : LRNMode
  lrnN : Int
  lrnAlpha : Rat
  lrnBeta : Rat
  lrnK : Rat
deriving DecidableEq, Repr

/-- Contents of a `miopenTensorDescriptor_t` after
`miopenSet4dTensorDescriptor`. -/
structure TensorDescData where
  dtype : DType
  n : Nat
  c : Nat
  h : Nat
  w : Nat
deriving DecidableEq, Repr

/-- A tensor descriptor object: `none` models a descriptor that was created but
never set (the vendor object exists but holds no shape yet). -/
abbrev TensorDesc := Option TensorDescData

/-- An LRN descriptor object: `none` models created-but-never-set. -/
abbrev LRNDesc := Option LRNParams

/-- The device buffers an adapter call can hand to the library as a write
destination (or `null` for a null pointer): the declared outputs `Y` / `dX`,
the gradient operator's internal scratch and workspace buffers. The input
tensors `X`, `Y`, `dY` are listed so that "never written" is statable. -/
inductive Role where
  | inX
  | inY
  | indY
  | outY
  | outDX
  | scratch
  | wsBuf
  | null
deriving DecidableEq, Repr

/-- One vendor-library (or HIP runtime) call performed by the adapter, with the
arguments it passed and the status code the library returned. -/
inductive Event where
  | createTensorDesc (st : Status)
  | createLRNDesc (st : Status)
  | setLRNDesc (p : LRNParams) (st : Status)
  | destroyTensorDesc (st : Status)
  | destroyLRNDesc (st : Status)
  | set4dTensorDesc (d : TensorDescData) (st : Status)
  | getWorkSpaceSize (d : TensorDesc) (sz : Nat) (st : Status)
  | lrnFwd (p : LRNDesc) (a : Rat) (xDesc : TensorDesc) (x : List Int)
      (b : Rat) (yDesc : TensorDesc) (dst : Role) (doBwd : Bool) (ws : Role)
      (st : Status)
  | lrnBwd (p : LRNDesc) (a : Rat) (yDesc : TensorDesc) (y : List Int)
      (dyDesc : TensorDesc) (dy : List Int) (xDesc : TensorDesc) (x : List Int)
      (b : Rat) (dxDesc : TensorDesc) (dst : Role) (ws : Role) (st : Status)
  | hipMallocEv (dst : Role) (bytes : Nat) (st : Status)
  | hipFreeEv (buf : Role) (st : Status)
deriving DecidableEq, Repr

/-- The status code the library returned for this call. -/
def Event.status : Event → Status
  | .createTensorDesc st => st
  | .createLRNDesc st => st
  | .setLRNDesc _ st => st
  | .destroyTensorDesc st => st
  | .destroyLRNDesc st => st
  | .set4dTensorDesc _ st => st
  | .getWorkSpaceSize _ _ st => st
  | .lrnFwd _ _ _ _ _ _ _ _ _ st => st
  | .lrnBwd _ _ _ _ _ _ _ _ _ _ _ _ st => st
  | .hipMallocEv _ _ st => st
  | .hipFreeEv _ st => st

/-- Whether this call is one of the MIOpen vendor-library entry points
(descriptor create/set/destroy, workspace-size query, LRN forward, LRN
backward), as opposed to a HIP runtime allocation call. -/
def Event.isMiopenCall : Event → Bool
  | .hipMallocEv _ _ _ => false
  | .hipFreeEv _ _ => false
  | _ => true

/-- The buffers this call lets the library write into. -/
def Event.writes : Event → List Role
  | .lrnFwd _ _ _ _ _ _ dst _ ws _ => if ws = Role.null then [dst] else [dst, ws]
  | .lrnBwd _ _ _ _ _ _ _ _ _ _ dst _ _ => [dst]
  | .hipMallocEv dst _ _ => [dst]
  | _ => []

/-- Call kinds, to state occurrence/order properties about traces. -/
inductive EventKind where
  | createTensorDescK
  | createLRNDescK
  | setLRNDescK
  | destroyTensorDescK
  | destroyLRNDescK
  | set4dK
  | wsQueryK
  | fwdK
  | bwdK
  | mallocK
  | freeK
deriving DecidableEq, Repr

/-- The kind of a call event. -/
def Event.kind : Event → EventKind
  | .createTensorDesc _ => .createTensorDescK
  | .createLRNDesc _ => .createLRNDescK
  | .setLRNDesc _ _ => .setLRNDescK
  | .destroyTensorDesc _ => .destroyTensorDescK
  | .destroyLRNDesc _ => .destroyLRNDescK
  | .set4dTensorDesc _ _ => .set4dK
  | .getWorkSpaceSize _ _ _ => .wsQueryK
  | .lrnFwd _ _ _ _ _ _ _ _ _ _ => .fwdK
  | .lrnBwd _ _ _ _ _ _ _ _ _ _ _ _ _ => .bwdK
  | .hipMallocEv _ _ _ => .mallocK
  | .hipFreeEv _ _ => .freeK

/-- The opaque vendor library (plus the HIP allocator), modelled as the status
code and result data it returns to each call the adapter can make. -/
structure MiopenLib where
  createTensorDescStatus : Status
  createLRNDescStatus : Status
  setLRNDescStatus : LRNParams → Status
  destroyTensorDescStatus : Status
  destroyLRNDescStatus : Status
  set4dStatus : TensorDescData → Status
  workSpaceSize : TensorDesc → Status × Nat
  fwd : LRNDesc → Rat → TensorDesc → List Int → Rat → TensorDesc → Bool →
      Status × List Int × List Int
  bwd : LRNDesc → Rat → TensorDesc → List Int → TensorDesc → List Int →
      TensorDesc → List Int → Rat → TensorDesc → List Int → Status × List Int
  hipMallocStatus : Nat → Status
  hipFreeStatus : Status

/-- A fatal failure of an operator: a thrown MIOpen error (`MIOPEN_ENFORCE`),
a thrown HIP error (`HIP_CHECK`), or a `CAFFE_THROW` with a message. -/
inductive CaffeError where
  | miopenFailure (code : Status)
  | hipFailure (code : Status)
  | thrown (msg : String)
deriving DecidableEq, Repr

/-- Arguments of the `OperatorDef`, as far as the two constructors read them
(`OperatorBase::GetSingleArgument` with a default for a missing argument). -/
structure OperatorArgs where
  size : Option Int
  alpha : Option Rat
  beta : Option Rat
  bias : Option Rat
  do_backward : Option Bool
deriving DecidableEq, Repr

/-- Member state of a `MIOPEN_LRNOP` object. -/
structure MIOPEN_LRNOP where
  mode_ : LRNMode
  size_ : Int
  alpha_ : Rat
  beta_ : Rat
  bias_ : Rat
  data_desc_ : TensorDesc
  norm_desc_ : LRNDesc
  miopen_input_dims_ : List Nat
deriving DecidableEq, Repr

/-- A device buffer obtained from `hipMalloc`: its byte size and current
contents. -/
structure DevBuf where
  bytes : Nat
  data : List Int
deriving DecidableEq, Repr

/-- Member state of a `MIOPENLRNGradientOp` object. `none` for the two buffer
members models a null pointer. -/
structure MIOPENLRNGradientOp where
  mode_ : LRNMode
  size_ : Int
  alpha_ : Rat
  beta_ : Rat
  bias_ : Rat
  do_backward_ : Bool
  data_desc_ : TensorDesc
  norm_desc_ : LRNDesc
  miopen_input_dims_ : List Nat
  bwdLRNWs_ : Option DevBuf
  bwdLRNScratch_ : Option DevBuf
deriving DecidableEq, Repr

/-- `MIOPEN_LRNOP::MIOPEN_LRNOP`: read the scalar arguments, create the two
descriptors, and set the LRN descriptor from mode and hyperparameters; every
vendor status is `MIOPEN_ENFORCE`d. -/
def MIOPEN_LRNOP.construct (lib : MiopenLib) (args : OperatorArgs) :
    List Event × Except CaffeError MIOPEN_LRNOP :=
  let mode := LRNMode.crossChannel
  let size := args.size.getD 0
  let alpha := args.alpha.getD 0
  let beta := args.beta.getD 0
  let bias := args.bias.getD 1
  let st1 := lib.createTensorDescStatus
  if st1 ≠ 0 then
    ([Event.createTensorDesc st1], Except.error (CaffeError.miopenFailure st1))
  else
    let st2 := lib.createLRNDescStatus
    if st2 ≠ 0 then
      ([Event.createTensorDesc st1, Event.createLRNDesc st2],
        Except.error (CaffeError.miopenFailure st2))
    else
      let p : LRNParams := ⟨mode, size, alpha, beta, bias⟩
      let st3 := lib.setLRNDescStatus p
      if st3 ≠ 0 then
        ([Event.createTensorDesc st1, Event.createLRNDesc st2,
            Event.setLRNDesc p st3],
          Except.error (CaffeError.miopenFailure st3))
      else
        ([Event.createTensorDesc st1, Event.createLRNDesc st2,
            Event.setLRNDesc p st3],
          Except.ok
            { mode_ := mode, size_ := size, alpha_ := alpha, beta_ := beta,
              bias_ := bias, data_desc_ := none, norm_desc_ := some p,
              miopen_input_dims_ := [] })

/-- `MIOPENLRNGradientOp::MIOPENLRNGradientOp`: same as the forward operator's
constructor, plus the `do_backward` argument and the two null buffer members. -/
def MIOPENLRNGradientOp.construct (lib : MiopenLib) (args : OperatorArgs) :
    List Event × Except CaffeError MIOPENLRNGradientOp :=
  let mode := LRNMode.crossChannel
  let size := args.size.getD 0
  let alpha := args.alpha.getD 0
  let beta := args.beta.getD 0
  let bias := args.bias.getD 1
  let doBwd := args.do_backward.getD false
  let st1 := lib.createTensorDescStatus
  if st1 ≠ 0 then
    ([Event.createTensorDesc st1], Except.error (CaffeError.miopenFailure st1))
  else
    let st2 := lib.createLRNDescStatus
    if st2 ≠ 0 then
      ([Event.createTensorDesc st1, Event.createLRNDesc st2],
        Except.error (CaffeError.miopenFailure st2))
    else
      let p : LRNParams := ⟨mode, size, alpha, beta, bias⟩
      let st3 := lib.setLRNDescStatus p
      if st3 ≠ 0 then
        ([Event.createTensorDesc st1, Event.createLRNDesc st2,
            Event.setLRNDesc p st3],
          Except.error (CaffeError.miopenFailure st3))
      else
        ([Event.createTensorDesc st1, Event.createLRNDesc st2,
            Event.setLRNDesc p st3],
          Except.ok
            { mode_ := mode, size_ := size, alpha_ := alpha, beta_ := beta,
              bias_ := bias, do_backward_ := doBwd, data_desc_ := none,
              norm_desc_ := some p, miopen_input_dims_ := [],
              bwdLRNWs_ := none, bwdLRNScratch_ := none })

/-- The 4-D tensor descriptor the adapter marshals from a dims vector:
`(N, C, H, W)` from dimensions 0 through 3, with the `float` element type. -/
def marshalDims (l : List Nat) : TensorDescData :=
  { dtype := DType.float, n := l.getD 0 0, c := l.getD 1 0, h := l.getD 2 0,
    w := l.getD 3 0 }

/-- The descriptor marshalled from a tensor's shape. -/
def marshalDesc (t : Tensor) : TensorDescData := marshalDims t.dims

/-- `MIOPEN_LRNOP::DoRunWithType<float,float>`: re-set the tensor descriptor
if `X`'s dims differ from the cached dims, then call `miopenLRNForward` with
`data_desc_` for both tensor arguments, writing into `Y`'s mutable data. -/
def MIOPEN_LRNOP.DoRunWithType (lib : MiopenLib) (op : MIOPEN_LRNOP)
    (X Y : Tensor) : List Event × Except CaffeError (MIOPEN_LRNOP × Tensor) :=
  let (tr0, op1res) :=
    if X.dims ≠ op.miopen_input_dims_ then
      let d : TensorDescData := marshalDesc X
      let st := lib.set4dStatus d
      ([Event.set4dTensorDesc d st],
        if st = 0 then
          Except.ok
            { op with miopen_input_dims_ := X.dims, data_desc_ := some d }
        else Except.error (CaffeError.miopenFailure st))
    else (([] : List Event), Except.ok op)
  match op1res with
  | Except.error e => (tr0, Except.error e)
  | Except.ok op1 =>
    let fr := lib.fwd op1.norm_desc_ op1.alpha_ op1.data_desc_ X.data
      op1.beta_ op1.data_desc_ false
    let ev := Event.lrnFwd op1.norm_desc_ op1.alpha_ op1.data_desc_ X.data
      op1.beta_ op1.data_desc_ Role.outY false Role.null fr.1
    if fr.1 = 0 then
      (tr0 ++ [ev],
        Except.ok (op1, { Y with dtype := DType.float, data := fr.2.1 }))
    else (tr0 ++ [ev], Except.error (CaffeError.miopenFailure fr.1))

/-- The observable outcome of one `RunOnDevice` call: the vendor calls made,
the operator's output tensor as left by the run (also on a failed run, since
the resize precedes the failure points), and either the new member state or
the fatal error. -/
structure RunResult (σ : Type) where
  trace : List Event
  output : Tensor
  result : Except CaffeError σ
deriving Repr

/-- `MIOPEN_LRNOP::RunOnDevice`: resize `Y` like `X`, then dispatch on `X`'s
element type: `float` runs `DoRunWithType<float,float>`, anything else throws
`"Unsupported input type"`. -/
def MIOPEN_LRNOP.RunOnDevice (lib : MiopenLib) (op : MIOPEN_LRNOP)
    (X Y0 : Tensor) : RunResult MIOPEN_LRNOP :=
  let Y := Y0.resizeLike X
  if X.dtype = DType.float then
    let (tr, r) := MIOPEN_LRNOP.DoRunWithType lib op X Y
    match r with
    | Except.ok (op1, Y1) => ⟨tr, Y1, Except.ok op1⟩
    | Except.error e => ⟨tr, Y, Except.error e⟩
  else
    ⟨[], Y, Except.error (CaffeError.thrown "Unsupported input type")⟩

/-- `MIOPEN_LRNOP::~MIOPEN_LRNOP`: destroy both descriptors, each status
`MIOPEN_ENFORCE`d. -/
def MIOPEN_LRNOP.destructor (lib : MiopenLib) (_op : MIOPEN_LRNOP) :
    List Event × Except CaffeError Unit :=
  let st1 := lib.destroyTensorDescStatus
  if st1 ≠ 0 then
    ([Event.destroyTensorDesc st1], Except.error (CaffeError.miopenFailure st1))
  else
    let st2 := lib.destroyLRNDescStatus
    if st2 ≠ 0 then
      ([Event.destroyTensorDesc st1, Event.destroyLRNDesc st2],
        Except.error (CaffeError.miopenFailure st2))
    else
      ([Event.destroyTensorDesc st1, Event.destroyLRNDesc st2],
        Except.ok ())

/-- Sequencing with early exit: the shallow embedding of C++ statement
sequences under exception propagation, accumulating the vendor-call trace. -/
def bindE (a : List Event × Except CaffeError α)
    (f : α → List Event × Except CaffeError β) :
    List Event × Except CaffeError β :=
  match a.2 with
  | Except.error e => (a.1, Except.error e)
  | Except.ok x => (a.1 ++ (f x).1, (f x).2)

/-- A statement that performs no vendor call. -/
def pureE (x : α) : List Event × Except CaffeError α := ([], Except.ok x)

/-- One `MIOPEN_ENFORCE(call)`: record the call; success continues with `x`,
a non-success status throws it as a fatal MIOpen failure. -/
def enforceCall (ev : Event) (x : α) : List Event × Except CaffeError α :=
  if ev.status = 0 then ([ev], Except.ok x)
  else ([ev], Except.error (CaffeError.miopenFailure ev.status))

/-- One `HIP_CHECK(call)`: record the call; success continues with `x`, a
non-success status throws it as a fatal HIP failure. -/
def hipCheckCall (ev : Event) (x : α) : List Event × Except CaffeError α :=
  if ev.status = 0 then ([ev], Except.ok x)
  else ([ev], Except.error (CaffeError.hipFailure ev.status))

/-- The compute phase of `MIOPENLRNGradientOp::DoRunWithType<float,float>`
(everything after the optional descriptor re-set): query the workspace
size; allocate the workspace and scratch buffers if still null (workspace
sized by the query, scratch by `X.size() * sizeof(float)`); run
`miopenLRNForward` into the scratch buffer (populating the workspace); run
`miopenLRNBackward` into `dX`'s mutable data.  Every MIOpen status is
`MIOPEN_ENFORCE`d and every HIP status is `HIP_CHECK`ed. -/
def MIOPENLRNGradientOp.computePhase (lib : MiopenLib)
    (op1 : MIOPENLRNGradientOp) (X Y dY dX : Tensor) :
    List Event × Except CaffeError (MIOPENLRNGradientOp × Tensor) :=
  bindE
      (enforceCall
        (Event.getWorkSpaceSize op1.data_desc_
          (lib.workSpaceSize op1.data_desc_).2
          (lib.workSpaceSize op1.data_desc_).1)
        (lib.workSpaceSize op1.data_desc_).2)
      (fun wsSz =>
      bindE
        (match op1.bwdLRNWs_ with
          | none =>
            hipCheckCall
              (Event.hipMallocEv Role.wsBuf wsSz (lib.hipMallocStatus wsSz))
              (DevBuf.mk wsSz (List.replicate wsSz 0))
          | some b => pureE b)
        (fun wsBuf0 =>
        bindE
          (match op1.bwdLRNScratch_ with
            | none =>
              hipCheckCall
                (Event.hipMallocEv Role.scratch (X.numElems * 4)
                  (lib.hipMallocStatus (X.numElems * 4)))
                (DevBuf.mk (X.numElems * 4) (List.replicate X.numElems 0))
            | some b => pureE b)
          (fun scrBuf0 =>
          bindE
            (enforceCall
              (Event.lrnFwd op1.norm_desc_ op1.alpha_ op1.data_desc_ X.data
                op1.beta_ op1.data_desc_ Role.scratch true Role.wsBuf
                (lib.fwd op1.norm_desc_ op1.alpha_ op1.data_desc_ X.data
                  op1.beta_ op1.data_desc_ true).1)
              (lib.fwd op1.norm_desc_ op1.alpha_ op1.data_desc_ X.data
                op1.beta_ op1.data_desc_ true).2)
            (fun fwdOut =>
            let wsBuf1 : DevBuf := { wsBuf0 with data := fwdOut.2 }
            let scrBuf1 : DevBuf := { scrBuf0 with data := fwdOut.1 }
            bindE
              (enforceCall
                (Event.lrnBwd op1.norm_desc_ op1.alpha_ op1.data_desc_ Y.data
                  op1.data_desc_ dY.data op1.data_desc_ X.data op1.beta_
                  op1.data_desc_ Role.outDX Role.wsBuf
                  (lib.bwd op1.norm_desc_ op1.alpha_ op1.data_desc_ Y.data
                    op1.data_desc_ dY.data op1.data_desc_ X.data op1.beta_
                    op1.data_desc_ wsBuf1.data).1)
                (lib.bwd op1.norm_desc_ op1.alpha_ op1.data_desc_ Y.data
                  op1.data_desc_ dY.data op1.data_desc_ X.data op1.beta_
                  op1.data_desc_ wsBuf1.data).2)
              (fun dxData =>
              pureE
                ({ op1 with
                    bwdLRNWs_ := some wsBuf1
                    bwdLRNScratch_ := some scrBuf1 },
                  { dX with dtype := DType.float, data := dxData }))))))

/-- `MIOPENLRNGradientOp::DoRunWithType<float,float>`: the optional
descriptor re-set (when `dY`'s dims differ from the cached dims), then the
compute phase. -/
def MIOPENLRNGradientOp.DoRunWithType (lib : MiopenLib)
    (op : MIOPENLRNGradientOp) (X Y dY dX : Tensor) :
    List Event × Except CaffeError (MIOPENLRNGradientOp × Tensor) :=
  bindE
    (if dY.dims ≠ op.miopen_input_dims_ then
      let d : TensorDescData := marshalDesc dY
      enforceCall (Event.set4dTensorDesc d (lib.set4dStatus d))
        { op with miopen_input_dims_ := dY.dims, data_desc_ := some d }
    else pureE op)
    (fun op1 => MIOPENLRNGradientOp.computePhase lib op1 X Y dY dX)

/-- `MIOPENLRNGradientOp::RunOnDevice`: resize `dX` like `dY`, then dispatch
on `dY`'s element type only: `float` runs `DoRunWithType<float,float>`,
anything else throws `"Unsupported input type"`. -/
def MIOPENLRNGradientOp.RunOnDevice (lib : MiopenLib)
    (op : MIOPENLRNGradientOp) (X Y dY dX0 : Tensor) :
    RunResult MIOPENLRNGradientOp :=
  let dX := dX0.resizeLike dY
  if dY.dtype = DType.float then
    let (tr, r) := MIOPENLRNGradientOp.DoRunWithType lib op X Y dY dX
    match r with
    | Except.ok (op1, dX1) => ⟨tr, dX1, Except.ok op1⟩
    | Except.error e => ⟨tr, dX, Except.error e⟩
  else
    ⟨[], dX, Except.error (CaffeError.thrown "Unsupported input type")⟩

/-- `MIOPENLRNGradientOp::~MIOPENLRNGradientOp`: destroy both descriptors
(each status `MIOPEN_ENFORCE`d), then `hipFree` whichever of the two buffers
is non-null; the `hipFree` return codes are not checked by the destructor. -/
def MIOPENLRNGradientOp.destructor (lib : MiopenLib)
    (op : MIOPENLRNGradientOp) : List Event × Except CaffeError Unit :=
  let st1 := lib.destroyTensorDescStatus
  if st1 ≠ 0 then
    ([Event.destroyTensorDesc st1], Except.error (CaffeError.miopenFailure st1))
  else
    let st2 := lib.destroyLRNDescStatus
    if st2 ≠ 0 then
      ([Event.destroyTensorDesc st1, Event.destroyLRNDesc st2],
        Except.error (CaffeError.miopenFailure st2))
    else
      let trW :=
        match op.bwdLRNWs_ with
        | some _ => [Event.hipFreeEv Role.wsBuf lib.hipFreeStatus]
        | none => ([] : List Event)
      let trS :=
        match op.bwdLRNScratch_ with
        | some _ => [Event.hipFreeEv Role.scratch lib.hipFreeStatus]
        | none => ([] : List Event)
      ([Event.destroyTensorDesc st1, Event.destroyLRNDesc st2] ++ trW ++ trS,
        Except.ok ())

/-- The two operator classes this file defines. -/
inductive BoundOp where
  | forwardOpClass
  | gradientOpClass
deriving DecidableEq, Repr

/-- One `REGISTER_MIOPEN_OPERATOR` line: the registered operator name, the
class it binds to, and the operator's input/output arity (inputs `X` / outputs
`Y` for the forward class; inputs `X, Y, dY` / output `dX` for the gradient
class). -/
structure Registration where
  opName : String
  bound : BoundOp
  numInputs : Nat
  numOutputs : Nat
deriving DecidableEq, Repr

/-- The file's registration block: `REGISTER_MIOPEN_OPERATOR(LRN,
MIOPEN_LRNOP)` and `REGISTER_MIOPEN_OPERATOR(LRNGradient,
MIOPENLRNGradientOp)`, and nothing else. -/
def registeredMiopenOps : List Registration :=
  [{ opName := "LRN", bound := BoundOp.forwardOpClass, numInputs := 1,
      numOutputs := 1 },
    { opName := "LRNGradient", bound := BoundOp.gradientOpClass,
      numInputs := 3, numOutputs := 1 }]

/-- The status-handling discipline of `MIOPEN_ENFORCE`: any MIOpen call in the
trace that returned a non-success status forces the whole computation to end
as exactly that fatal MIOpen failure (so it is never silently ignored), and a
fatal MIOpen failure always comes from a real MIOpen call in the trace that
returned that non-success code (failures are never fabricated). -/
def StatusesChecked {σ : Type} (tr : List Event) (r : Except CaffeError σ) :
    Prop :=
  (∀ e ∈ tr, e.isMiopenCall = true → e.status ≠ 0 →
      r = Except.error (CaffeError.miopenFailure e.status)) ∧
  (∀ c, r = Except.error (CaffeError.miopenFailure c) →
      c ≠ 0 ∧ ∃ e ∈ tr, e.isMiopenCall = true ∧ e.status = c)

lemma statusesChecked_pureE (x : α) :
    StatusesChecked (pureE x).1 (pureE x).2 := by
  simp [StatusesChecked, pureE]

lemma statusesChecked_enforceCall (ev : Event) (x : α)
    (hm : ev.isMiopenCall = true) :
    StatusesChecked (enforceCall ev x).1 (enforceCall ev x).2 := by
  unfold StatusesChecked enforceCall
  by_cases h : ev.status = 0 <;> simp_all

lemma statusesChecked_hipCheckCall (ev : Event) (x : α)
    (hm : ev.isMiopenCall = false) :
    StatusesChecked (hipCheckCall ev x).1 (hipCheckCall ev x).2 := by
  unfold StatusesChecked hipCheckCall
  by_cases h : ev.status = 0 <;> simp_all

lemma statusesChecked_bindE {a : List Event × Except CaffeError α}
    {f : α → List Event × Except CaffeError β}
    (ha : StatusesChecked a.1 a.2)
    (hf : ∀ x, StatusesChecked (f x).1 (f x).2) :
    StatusesChecked (bindE a f).1 (bindE a f).2 := by
  obtain ⟨ha1, ha2⟩ := ha
  unfold bindE
  rcases hr : a.2 with e | x
  · simp only [hr] at ha1 ha2 ⊢
    refine ⟨fun ev hev hm hs => ?_, fun c hc => ?_⟩
    · have h := ha1 ev hev hm hs
      simp only [Except.error.injEq] at h ⊢
      exact h
    · refine ha2 c ?_
      simp only [Except.error.injEq] at hc ⊢
      exact hc
  · simp only [hr] at ha1 ha2 ⊢
    obtain ⟨hf1, hf2⟩ := hf x
    refine ⟨fun ev hev hm hs => ?_, fun c hc => ?_⟩
    · rcases List.mem_append.mp hev with h | h
      · exact absurd (ha1 ev h hm hs) (by simp)
      · exact hf1 ev h hm hs
    · obtain ⟨hc0, e1, he1, hm1, hs1⟩ := hf2 c hc
      exact ⟨hc0, e1, List.mem_append.mpr (Or.inr he1), hm1, hs1⟩

lemma statusesChecked_fwd_construct (lib : MiopenLib) (args : OperatorArgs) :
    StatusesChecked (MIOPEN_LRNOP.construct lib args).1
      (MIOPEN_LRNOP.construct lib args).2 := by
  unfold StatusesChecked MIOPEN_LRNOP.construct
  by_cases h1 : lib.createTensorDescStatus = 0 <;>
    by_cases h2 : lib.createLRNDescStatus = 0 <;>
      by_cases h3 : lib.setLRNDescStatus
        ⟨LRNMode.crossChannel, args.size.getD 0, args.alpha.getD 0,
          args.beta.getD 0, args.bias.getD 1⟩ = 0 <;>
    simp_all [Event.status, Event.isMiopenCall]

lemma statusesChecked_grad_construct (lib : MiopenLib) (args : OperatorArgs) :
    StatusesChecked (MIOPENLRNGradientOp.construct lib args).1
      (MIOPENLRNGradientOp.construct lib args).2 := by
  unfold StatusesChecked MIOPENLRNGradientOp.construct
  by_cases h1 : lib.createTensorDescStatus = 0 <;>
    by_cases h2 : lib.createLRNDescStatus = 0 <;>
      by_cases h3 : lib.setLRNDescStatus
        ⟨LRNMode.crossChannel, args.size.getD 0, args.alpha.getD 0,
          args.beta.getD 0, args.bias.getD 1⟩ = 0 <;>
    simp_all [Event.status, Event.isMiopenCall]

lemma statusesChecked_fwd_doRun (lib : MiopenLib) (op : MIOPEN_LRNOP)
    (X Y : Tensor) :
    StatusesChecked (MIOPEN_LRNOP.DoRunWithType lib op X Y).1
      (MIOPEN_LRNOP.DoRunWithType lib op X Y).2 := by
  unfold StatusesChecked MIOPEN_LRNOP.DoRunWithType
  by_cases hd : X.dims = op.miopen_input_dims_ <;>
    by_cases h4 : lib.set4dStatus (marshalDesc X) = 0 <;>
    simp_all [Event.status, Event.isMiopenCall] <;>
    split <;>
    simp_all [Event.status, Event.isMiopenCall]

lemma statusesChecked_fwd_run (lib : MiopenLib) (op : MIOPEN_LRNOP)
    (X Y0 : Tensor) :
    StatusesChecked (MIOPEN_LRNOP.RunOnDevice lib op X Y0).trace
      (MIOPEN_LRNOP.RunOnDevice lib op X Y0).result := by
  have h := statusesChecked_fwd_doRun lib op X (Y0.resizeLike X)
  unfold MIOPEN_LRNOP.RunOnDevice
  by_cases hf : X.dtype = DType.float
  · simp only [hf, if_pos]
    obtain ⟨h1, h2⟩ := h
    rcases hr : (MIOPEN_LRNOP.DoRunWithType lib op X (Y0.resizeLike X)).2 with
        e | ⟨op1, Y1⟩ <;> rw [hr] at h1 h2
    · refine ⟨fun a b hm hs => ?_, fun c hc => ?_⟩
      · simpa using h1 a b hm hs
      · exact h2 c (by simpa using hc)
    · refine ⟨fun a b hm hs => ?_, fun c hc => ?_⟩
      · exact absurd (h1 a b hm hs) (by simp)
      · exact absurd hc (by simp)
  · constructor <;> simp [hf, StatusesChecked]

lemma statusesChecked_grad_doRun (lib : MiopenLib) (op : MIOPENLRNGradientOp)
    (X Y dY dX : Tensor) :
    StatusesChecked (MIOPENLRNGradientOp.DoRunWithType lib op X Y dY dX).1
      (MIOPENLRNGradientOp.DoRunWithType lib op X Y dY dX).2 := by
  unfold MIOPENLRNGradientOp.DoRunWithType MIOPENLRNGradientOp.computePhase
  refine statusesChecked_bindE ?_ (fun op1 => ?_)
  · split
    · exact statusesChecked_enforceCall _ _ rfl
    · exact statusesChecked_pureE _
  · refine statusesChecked_bindE (statusesChecked_enforceCall _ _ rfl)
      (fun wsSz => ?_)
    refine statusesChecked_bindE ?_ (fun wsBuf0 => ?_)
    · rcases op1.bwdLRNWs_ with _ | b
      · exact statusesChecked_hipCheckCall _ _ rfl
      · exact statusesChecked_pureE _
    refine statusesChecked_bindE ?_ (fun scrBuf0 => ?_)
    · rcases op1.bwdLRNScratch_ with _ | b
      · exact statusesChecked_hipCheckCall _ _ rfl
      · exact statusesChecked_pureE _
    refine statusesChecked_bindE (statusesChecked_enforceCall _ _ rfl)
      (fun fwdOut => ?_)
    exact statusesChecked_bindE (statusesChecked_enforceCall _ _ rfl)
      (fun dxData => statusesChecked_pureE _)

lemma statusesChecked_grad_run (lib : MiopenLib) (op : MIOPENLRNGradientOp)
    (X Y dY dX0 : Tensor) :
    StatusesChecked (MIOPENLRNGradientOp.RunOnDevice lib op X Y dY dX0).trace
      (MIOPENLRNGradientOp.RunOnDevice lib op X Y dY dX0).result := by
  have h := statusesChecked_grad_doRun lib op X Y dY (dX0.resizeLike dY)
  unfold MIOPENLRNGradientOp.RunOnDevice
  by_cases hf : dY.dtype = DType.float
  · simp only [hf, if_pos]
    obtain ⟨h1, h2⟩ := h
    rcases hr : (MIOPENLRNGradientOp.DoRunWithType lib op X Y dY
        (dX0.resizeLike dY)).2 with e | ⟨op1, dX1⟩ <;> rw [hr] at h1 h2
    · refine ⟨fun a b hm hs => ?_, fun c hc => ?_⟩
      · simpa using h1 a b hm hs
      · exact h2 c (by simpa using hc)
    · refine ⟨fun a b hm hs => ?_, fun c hc => ?_⟩
      · exact absurd (h1 a b hm hs) (by simp)
      · exact absurd hc (by simp)
  · constructor <;> simp [hf, StatusesChecked]

lemma statusesChecked_fwd_destructor (lib : MiopenLib) (op : MIOPEN_LRNOP) :
    StatusesChecked (MIOPEN_LRNOP.destructor lib op).1
      (MIOPEN_LRNOP.destructor lib op).2 := by
  unfold StatusesChecked MIOPEN_LRNOP.destructor
  by_cases h1 : lib.destroyTensorDescStatus = 0 <;>
    by_cases h2 : lib.destroyLRNDescStatus = 0 <;>
    simp_all [Event.status, Event.isMiopenCall]

lemma statusesChecked_grad_destructor (lib : MiopenLib)
    (op : MIOPENLRNGradientOp) :
    StatusesChecked (MIOPENLRNGradientOp.destructor lib op).1
      (MIOPENLRNGradientOp.destructor lib op).2 := by
  unfold StatusesChecked MIOPENLRNGradientOp.destructor
  by_cases h1 : lib.destroyTensorDescStatus = 0 <;>
    by_cases h2 : lib.destroyLRNDescStatus = 0 <;>
    rcases op.bwdLRNWs_ with _ | w <;>
    rcases op.bwdLRNScratch_ with _ | s <;>
    simp_all [Event.status, Event.isMiopenCall]

lemma bindE_ok {a : List Event × Except CaffeError α}
    {f : α → List Event × Except CaffeError β} {y : β}
    (h : (bindE a f).2 = Except.ok y) :
    ∃ x, a.2 = Except.ok x ∧ (f x).2 = Except.ok y ∧
      (bindE a f).1 = a.1 ++ (f x).1 := by
  unfold bindE at h ⊢
  rcases hr : a.2 with e | x <;> simp only [hr] at h ⊢
  · exact absurd h (by simp)
  · exact ⟨x, rfl, h, rfl⟩

lemma enforceCall_ok {ev : Event} {x y : α}
    (h : (enforceCall ev x).2 = Except.ok y) :
    ev.status = 0 ∧ y = x ∧ (enforceCall ev x).1 = [ev] := by
  unfold enforceCall at h ⊢
  by_cases hs : ev.status = 0 <;> simp_all

lemma hipCheckCall_ok {ev : Event} {x y : α}
    (h : (hipCheckCall ev x).2 = Except.ok y) :
    ev.status = 0 ∧ y = x ∧ (hipCheckCall ev x).1 = [ev] := by
  unfold hipCheckCall at h ⊢
  by_cases hs : ev.status = 0 <;> simp_all

lemma pureE_ok {x y : α} (h : (pureE x).2 = Except.ok y) :
    y = x ∧ (pureE x).1 = ([] : List Event) := by
  unfold pureE at h ⊢
  simp_all

/-- Success characterization of the forward operator's `DoRunWithType`: on a
successful run the descriptor was re-set (successfully, from `X`'s dims)
exactly when `X`'s dims differ from the cache, the forward vendor call
succeeded on the marshaled arguments, the new member state is the
descriptor-updated one, `Y`'s data is exactly the library's forward output,
and the trace is the optional descriptor-set call followed by the forward
call. -/
lemma fwd_doRun_ok_elim {lib : MiopenLib} {op op1 : MIOPEN_LRNOP}
    {X Y Y1 : Tensor}
    (h : (MIOPEN_LRNOP.DoRunWithType lib op X Y).2 = Except.ok (op1, Y1)) :
    ∃ opd : MIOPEN_LRNOP,
      opd = (if X.dims = op.miopen_input_dims_ then op
        else { op with
                miopen_input_dims_ := X.dims
                data_desc_ := some (marshalDesc X) }) ∧
      (X.dims ≠ op.miopen_input_dims_ → lib.set4dStatus (marshalDesc X) = 0) ∧
      (lib.fwd opd.norm_desc_ opd.alpha_ opd.data_desc_ X.data opd.beta_
          opd.data_desc_ false).1 = 0 ∧
      op1 = opd ∧
      Y1 = { Y with
              dtype := DType.float
              data := (lib.fwd opd.norm_desc_ opd.alpha_ opd.data_desc_ X.data
                opd.beta_ opd.data_desc_ false).2.1 } ∧
      (MIOPEN_LRNOP.DoRunWithType lib op X Y).1 =
        (if X.dims = op.miopen_input_dims_ then ([] : List Event)
          else [Event.set4dTensorDesc (marshalDesc X) 0]) ++
        [Event.lrnFwd opd.norm_desc_ opd.alpha_ opd.data_desc_ X.data
          opd.beta_ opd.data_desc_ Role.outY false Role.null 0] := by
  unfold MIOPEN_LRNOP.DoRunWithType at h
  by_cases hd : X.dims = op.miopen_input_dims_
  · simp only [hd, ne_eq, not_true_eq_false, ite_false] at h
    by_cases hs : (lib.fwd op.norm_desc_ op.alpha_ op.data_desc_ X.data
        op.beta_ op.data_desc_ false).1 = 0
    · simp only [hs, reduceIte, Except.ok.injEq, Prod.mk.injEq] at h
      obtain ⟨h1, h2⟩ := h
      subst h1
      subst h2
      refine ⟨op, (if_pos hd).symm, fun hne => absurd hd hne, hs, rfl, rfl, ?_⟩
      unfold MIOPEN_LRNOP.DoRunWithType
      simp [hd, hs]
    · simp [hs] at h
  · simp only [hd, ne_eq, not_false_eq_true, ite_true] at h
    by_cases h4 : lib.set4dStatus (marshalDesc X) = 0
    · simp only [h4, reduceIte] at h
      by_cases hs : (lib.fwd op.norm_desc_ op.alpha_ (some (marshalDesc X))
          X.data op.beta_ (some (marshalDesc X)) false).1 = 0
      · simp only [hs, reduceIte, Except.ok.injEq, Prod.mk.injEq] at h
        obtain ⟨h1, h2⟩ := h
        subst h1
        subst h2
        refine ⟨_, (if_neg hd).symm, fun _ => h4, ?_, rfl, ?_, ?_⟩
        · simpa using hs
        · rfl
        · unfold MIOPEN_LRNOP.DoRunWithType
          simp [hd, h4, hs]
      · simp [hs] at h
    · simp [h4] at h

/-- Success characterization of the gradient operator's `DoRunWithType`: on a
successful run the descriptor was re-set (successfully, from `dY`'s dims)
exactly when `dY`'s dims differ from the cache; the workspace-size query,
forward and backward vendor calls all succeeded on the marshaled arguments;
the buffers were allocated (successfully) exactly if they were null, the
workspace sized by this run's query and the scratch by `X.size() * 4` bytes;
`dX`'s data is exactly the library's backward output; and the trace is the
optional descriptor set, the workspace query, the at-most-two allocations,
the forward call into the scratch buffer, and the backward call into `dX`,
in that order. -/
lemma grad_doRun_ok_elim {lib : MiopenLib} {op op1 : MIOPENLRNGradientOp}
    {X Y dY dX dX1 : Tensor}
    (h : (MIOPENLRNGradientOp.DoRunWithType lib op X Y dY dX).2 =
      Except.ok (op1, dX1)) :
    ∃ opd : MIOPENLRNGradientOp,
      opd = (if dY.dims = op.miopen_input_dims_ then op
        else { op with miopen_input_dims_ := dY.dims, data_desc_ := some (marshalDesc dY) }) ∧
      (dY.dims ≠ op.miopen_input_dims_ → lib.set4dStatus (marshalDesc dY) = 0) ∧
      (lib.workSpaceSize opd.data_desc_).1 = 0 ∧
      (opd.bwdLRNWs_ = none →
        lib.hipMallocStatus (lib.workSpaceSize opd.data_desc_).2 = 0) ∧
      (opd.bwdLRNScratch_ = none →
        lib.hipMallocStatus (X.numElems * 4) = 0) ∧
      (lib.fwd opd.norm_desc_ opd.alpha_ opd.data_desc_ X.data opd.beta_
          opd.data_desc_ true).1 = 0 ∧
      (lib.bwd opd.norm_desc_ opd.alpha_ opd.data_desc_ Y.data opd.data_desc_
          dY.data opd.data_desc_ X.data opd.beta_ opd.data_desc_
          (lib.fwd opd.norm_desc_ opd.alpha_ opd.data_desc_ X.data opd.beta_
            opd.data_desc_ true).2.2).1 = 0 ∧
      op1 = { opd with
          bwdLRNWs_ := some (DevBuf.mk
            (opd.bwdLRNWs_.elim (lib.workSpaceSize opd.data_desc_).2 DevBuf.bytes)
            (lib.fwd opd.norm_desc_ opd.alpha_ opd.data_desc_ X.data opd.beta_
              opd.data_desc_ true).2.2)
          bwdLRNScratch_ := some (DevBuf.mk
            (opd.bwdLRNScratch_.elim (X.numElems * 4) DevBuf.bytes)
            (lib.fwd opd.norm_desc_ opd.alpha_ opd.data_desc_ X.data opd.beta_
              opd.data_desc_ true).2.1) } ∧
      dX1 = { dX with
          dtype := DType.float
          data := (lib.bwd opd.norm_desc_ opd.alpha_ opd.data_desc_ Y.data
            opd.data_desc_ dY.data opd.data_desc_ X.data opd.beta_
            opd.data_desc_
            (lib.fwd opd.norm_desc_ opd.alpha_ opd.data_desc_ X.data opd.beta_
              opd.data_desc_ true).2.2).2 } ∧
      (MIOPENLRNGradientOp.DoRunWithType lib op X Y dY dX).1 =
        (if dY.dims = op.miopen_input_dims_ then ([] : List Event)
          else [Event.set4dTensorDesc (marshalDesc dY) 0]) ++
        [Event.getWorkSpaceSize opd.data_desc_
          (lib.workSpaceSize opd.data_desc_).2 0] ++
        (opd.bwdLRNWs_.elim
          [Event.hipMallocEv Role.wsBuf (lib.workSpaceSize opd.data_desc_).2 0]
          (fun _ => ([] : List Event))) ++
        (opd.bwdLRNScratch_.elim
          [Event.hipMallocEv Role.scratch (X.numElems * 4) 0]
          (fun _ => ([] : List Event))) ++
        [Event.lrnFwd opd.norm_desc_ opd.alpha_ opd.data_desc_ X.data
            opd.beta_ opd.data_desc_ Role.scratch true Role.wsBuf 0,
          Event.lrnBwd opd.norm_desc_ opd.alpha_ opd.data_desc_ Y.data
            opd.data_desc_ dY.data opd.data_desc_ X.data opd.beta_
            opd.data_desc_ Role.outDX Role.wsBuf 0] := by
  unfold MIOPENLRNGradientOp.DoRunWithType MIOPENLRNGradientOp.computePhase at h ⊢
  obtain ⟨opd, h1, h2, htr1⟩ := bindE_ok h
  obtain ⟨wsSz, h3, h4, htr2⟩ := bindE_ok h2
  obtain ⟨hwq0, hwsSz, hevw⟩ := enforceCall_ok h3
  obtain ⟨wsBuf0, h5, h6, htr3⟩ := bindE_ok h4
  obtain ⟨scrBuf0, h7, h8, htr4⟩ := bindE_ok h6
  obtain ⟨fwdOut, h9, h10, htr5⟩ := bindE_ok h8
  obtain ⟨hfr0, hfwdOut, hevf⟩ := enforceCall_ok h9
  obtain ⟨dxData, h11, h12, htr6⟩ := bindE_ok h10
  obtain ⟨hbr0, hdxData, hevb⟩ := enforceCall_ok h11
  obtain ⟨hpair, htr7⟩ := pureE_ok h12
  simp only [Event.status] at hwq0 hfr0 hbr0
  subst hwsSz
  subst hfwdOut
  subst hdxData
  simp only [Prod.mk.injEq] at hpair
  obtain ⟨hop1, hdX1⟩ := hpair
  have hstep1 :
      opd = (if dY.dims = op.miopen_input_dims_ then op
        else { op with miopen_input_dims_ := dY.dims, data_desc_ := some (marshalDesc dY) }) ∧
      (dY.dims ≠ op.miopen_input_dims_ → lib.set4dStatus (marshalDesc dY) = 0) ∧
      ((if dY.dims ≠ op.miopen_input_dims_ then
          enforceCall
            (Event.set4dTensorDesc (marshalDesc dY)
              (lib.set4dStatus (marshalDesc dY)))
            { op with miopen_input_dims_ := dY.dims, data_desc_ := some (marshalDesc dY) }
        else pureE op).1 =
        (if dY.dims = op.miopen_input_dims_ then ([] : List Event)
          else [Event.set4dTensorDesc (marshalDesc dY) 0])) := by
    by_cases hd : dY.dims = op.miopen_input_dims_
    · simp only [hd, ne_eq, not_true_eq_false, ite_false, ite_true] at h1 ⊢
      obtain ⟨hopd, htr0⟩ := pureE_ok h1
      exact ⟨hopd, fun hne => hne.elim, htr0⟩
    · simp only [hd, ne_eq, not_false_eq_true, ite_true, ite_false] at h1 ⊢
      obtain ⟨hset0, hopd, htr0⟩ := enforceCall_ok h1
      simp only [Event.status] at hset0
      refine ⟨hopd, fun _ => hset0, ?_⟩
      rw [htr0, hset0]
  obtain ⟨hopd, hset, htr0⟩ := hstep1
  have hbytesW : wsBuf0.bytes =
      opd.bwdLRNWs_.elim (lib.workSpaceSize opd.data_desc_).2 DevBuf.bytes := by
    rcases hws : opd.bwdLRNWs_ with _ | wb <;> simp only [hws] at h5 ⊢
    · obtain ⟨_, hb, _⟩ := hipCheckCall_ok h5
      rw [hb]
      rfl
    · obtain ⟨hb, _⟩ := pureE_ok h5
      rw [hb]
      rfl
  have hmallW : opd.bwdLRNWs_ = none →
      lib.hipMallocStatus (lib.workSpaceSize opd.data_desc_).2 = 0 := by
    intro hn
    rw [hn] at h5
    obtain ⟨hm, _, _⟩ := hipCheckCall_ok h5
    simpa [Event.status] using hm
  have htrW : (match opd.bwdLRNWs_ with
      | none =>
        hipCheckCall
          (Event.hipMallocEv Role.wsBuf (lib.workSpaceSize opd.data_desc_).2
            (lib.hipMallocStatus (lib.workSpaceSize opd.data_desc_).2))
          (DevBuf.mk (lib.workSpaceSize opd.data_desc_).2
            (List.replicate (lib.workSpaceSize opd.data_desc_).2 0))
      | some b => pureE b).1 =
      opd.bwdLRNWs_.elim
        [Event.hipMallocEv Role.wsBuf (lib.workSpaceSize opd.data_desc_).2 0]
        (fun _ => ([] : List Event)) := by
    rcases hws : opd.bwdLRNWs_ with _ | wb <;> simp only [hws] at h5 ⊢
    · obtain ⟨hm, _, htw⟩ := hipCheckCall_ok h5
      simp only [Event.status] at hm
      rw [htw, hm]
      rfl
    · obtain ⟨_, htw⟩ := pureE_ok h5
      rw [htw]
      rfl
  have hbytesS : scrBuf0.bytes =
      opd.bwdLRNScratch_.elim (X.numElems * 4) DevBuf.bytes := by
    rcases hsc : opd.bwdLRNScratch_ with _ | sb <;> simp only [hsc] at h7 ⊢
    · obtain ⟨_, hb, _⟩ := hipCheckCall_ok h7
      rw [hb]
      rfl
    · obtain ⟨hb, _⟩ := pureE_ok h7
      rw [hb]
      rfl
  have hmallS : opd.bwdLRNScratch_ = none →
      lib.hipMallocStatus (X.numElems * 4) = 0 := by
    intro hn
    rw [hn] at h7
    obtain ⟨hm, _, _⟩ := hipCheckCall_ok h7
    simpa [Event.status] using hm
  have htrS : (match opd.bwdLRNScratch_ with
      | none =>
        hipCheckCall
          (Event.hipMallocEv Role.scratch (X.numElems * 4)
            (lib.hipMallocStatus (X.numElems * 4)))
          (DevBuf.mk (X.numElems * 4) (List.replicate X.numElems 0))
      | some b => pureE b).1 =
      opd.bwdLRNScratch_.elim
        [Event.hipMallocEv Role.scratch (X.numElems * 4) 0]
        (fun _ => ([] : List Event)) := by
    rcases hsc : opd.bwdLRNScratch_ with _ | sb <;> simp only [hsc] at h7 ⊢
    · obtain ⟨hm, _, htw⟩ := hipCheckCall_ok h7
      simp only [Event.status] at hm
      rw [htw, hm]
      rfl
    · obtain ⟨_, htw⟩ := pureE_ok h7
      rw [htw]
      rfl
  refine ⟨opd, hopd, hset, hwq0, hmallW, hmallS, hfr0, ?_, ?_, ?_, ?_⟩
  · simpa using hbr0
  · rw [hop1, hbytesW, hbytesS]
  · rw [hdX1]
  · rw [htr1, htr0, htr2, hevw, hwq0, htr3, htrW, htr4, htrS, htr5, hevf,
      hfr0, htr6, hevb, htr7]
    simp [hbr0, List.append_assoc]

/-- A concrete all-success vendor library, used to evaluate the theorems on
concrete inputs. -/
def okLib : MiopenLib where
  createTensorDescStatus := 0
  createLRNDescStatus := 0
  setLRNDescStatus := fun _ => 0
  destroyTensorDescStatus := 0
  destroyLRNDescStatus := 0
  set4dStatus := fun _ => 0
  workSpaceSize := fun _ => (0, 8)
  fwd := fun _ _ _ x _ _ _ => (0, x.map (· + 1), [7, 7])
  bwd := fun _ _ _ _ _ dy _ _ _ _ _ => (0, dy.map (· * 2))
  hipMallocStatus := fun _ => 0
  hipFreeStatus := 0

/-- Concrete operator arguments. -/
def argsEx : OperatorArgs :=
  { size := some 5, alpha := some 2, beta := some 3, bias := some 7,
    do_backward := some true }

/-- The forward operator as freshly constructed from `argsEx`. -/
def fopEx : MIOPEN_LRNOP :=
  { mode_ := LRNMode.crossChannel, size_ := 5, alpha_ := 2, beta_ := 3,
    bias_ := 7, data_desc_ := none,
    norm_desc_ := some ⟨LRNMode.crossChannel, 5, 2, 3, 7⟩,
    miopen_input_dims_ := [] }

/-- The gradient operator as freshly constructed from `argsEx`. -/
def gopEx : MIOPENLRNGradientOp :=
  { mode_ := LRNMode.crossChannel, size_ := 5, alpha_ := 2, beta_ := 3,
    bias_ := 7, do_backward_ := true, data_desc_ := none,
    norm_desc_ := some ⟨LRNMode.crossChannel, 5, 2, 3, 7⟩,
    miopen_input_dims_ := [], bwdLRNWs_ := none, bwdLRNScratch_ := none }

/-- Concrete 4-D float tensors. -/
def tX : Tensor := { dims := [1, 1, 2, 2], dtype := DType.float, data := [1, 2, 3, 4] }

def tY : Tensor := { dims := [1, 1, 2, 2], dtype := DType.float, data := [5, 6, 7, 8] }

def tdY : Tensor := { dims := [1, 1, 2, 2], dtype := DType.float, data := [9, 10, 11, 12] }

/-- A blank output tensor, as allocated by the framework before a run. -/
def tOut : Tensor := { dims := [], dtype := DType.float, data := [] }

/-- A concrete 4-D tensor of a non-float element type. -/
def tBad : Tensor := { dims := [1, 1, 2, 2], dtype := DType.other, data := [0, 0, 0, 0] }

/-- **C1.** Every status code returned by a vendor library call (descriptor
create/set/destroy, workspace-size query, LRN forward, LRN backward) — in the
constructor, `RunOnDevice` and destructor of both `MIOPEN_LRNOP` and
`MIOPENLRNGradientOp` — is checked, and any non-success code is propagated as
a fatal MIOpen failure of the operator; no MIOpen error code is silently
ignored on any execution path, and every reported MIOpen failure comes from a
real vendor call that returned that code. -/
theorem c1_vendor_statuses_checked_and_propagated :
    ∀ (lib : MiopenLib) (args : OperatorArgs) (fop : MIOPEN_LRNOP)
      (gop : MIOPENLRNGradientOp) (X Y dY Y0 dX0 : Tensor),
      StatusesChecked (MIOPEN_LRNOP.construct lib args).1
        (MIOPEN_LRNOP.construct lib args).2 ∧
      StatusesChecked (MIOPENLRNGradientOp.construct lib args).1
        (MIOPENLRNGradientOp.construct lib args).2 ∧
      StatusesChecked (MIOPEN_LRNOP.RunOnDevice lib fop X Y0).trace
        (MIOPEN_LRNOP.RunOnDevice lib fop X Y0).result ∧
      StatusesChecked (MIOPENLRNGradientOp.RunOnDevice lib gop X Y dY dX0).trace
        (MIOPENLRNGradientOp.RunOnDevice lib gop X Y dY dX0).result ∧
      StatusesChecked (MIOPEN_LRNOP.destructor lib fop).1
        (MIOPEN_LRNOP.destructor lib fop).2 ∧
      StatusesChecked (MIOPENLRNGradientOp.destructor lib gop).1
        (MIOPENLRNGradientOp.destructor lib gop).2 :=
  fun lib args fop gop X Y dY Y0 dX0 =>
    ⟨statusesChecked_fwd_construct lib args,
      statusesChecked_grad_construct lib args,
      statusesChecked_fwd_run lib fop X Y0,
      statusesChecked_grad_run lib gop X Y dY dX0,
      statusesChecked_fwd_destructor lib fop,
      statusesChecked_grad_destructor lib gop⟩

/-- **C6.** The file implements and registers exactly two operators: "LRN"
bound to the forward class `MIOPEN_LRNOP` with one input (`X`) and one output
(`Y`), and "LRNGradient" bound to `MIOPENLRNGradientOp` with three inputs
(`X`, `Y`, `dY`) and one output (`dX`). -/
theorem c6_exactly_two_registrations :
    registeredMiopenOps.length = 2 ∧
    registeredMiopenOps =
      [{ opName := "LRN", bound := BoundOp.forwardOpClass, numInputs := 1,
          numOutputs := 1 },
        { opName := "LRNGradient", bound := BoundOp.gradientOpClass,
          numInputs := 3, numOutputs := 1 }] ∧
    (registeredMiopenOps.map Registration.opName) = ["LRN", "LRNGradient"] :=
  ⟨rfl, rfl, rfl⟩

lemma fwd_run_output_dims (lib : MiopenLib) (op : MIOPEN_LRNOP)
    (X Y0 : Tensor) :
    (MIOPEN_LRNOP.RunOnDevice lib op X Y0).output.dims = X.dims := by
  unfold MIOPEN_LRNOP.RunOnDevice
  by_cases hf : X.dtype = DType.float
  · simp only [hf, if_pos]
    rcases hr : (MIOPEN_LRNOP.DoRunWithType lib op X (Y0.resizeLike X)).2 with
        e | ⟨op1, Y1⟩
    · simp [hr, Tensor.resizeLike]
    · obtain ⟨opd, _, _, _, _, hY1, _⟩ := fwd_doRun_ok_elim hr
      simp [hr, hY1, Tensor.resizeLike]
  · simp [hf, Tensor.resizeLike]

lemma grad_run_output_dims (lib : MiopenLib) (op : MIOPENLRNGradientOp)
    (X Y dY dX0 : Tensor) :
    (MIOPENLRNGradientOp.RunOnDevice lib op X Y dY dX0).output.dims =
      dY.dims := by
  unfold MIOPENLRNGradientOp.RunOnDevice
  by_cases hf : dY.dtype = DType.float
  · simp only [hf, if_pos]
    rcases hr : (MIOPENLRNGradientOp.DoRunWithType lib op X Y dY
        (dX0.resizeLike dY)).2 with e | ⟨op1, dX1⟩
    · simp [hr, Tensor.resizeLike]
    · obtain ⟨opd, _, _, _, _, _, _, _, _, hdX1, _⟩ := grad_doRun_ok_elim hr
      simp [hr, hdX1, Tensor.resizeLike]
  · simp [hf, Tensor.resizeLike]

/-- **C9.** On every invocation of `RunOnDevice`, the output is resized to
the shape of the dispatch input before the element-type check, so its dims
equal the dispatch input's dims both on success and on the
unsupported-type error (and on any vendor failure): `Y` gets `X`'s dims and
`dX` gets `dY`'s dims, unconditionally. -/
theorem c9_output_resized_before_type_check :
    ∀ (lib : MiopenLib) (fop : MIOPEN_LRNOP) (gop : MIOPENLRNGradientOp)
      (X Y dY Y0 dX0 : Tensor),
      (MIOPEN_LRNOP.RunOnDevice lib fop X Y0).output.dims = X.dims ∧
      (MIOPENLRNGradientOp.RunOnDevice lib gop X Y dY dX0).output.dims =
        dY.dims :=
  fun lib fop gop X Y dY Y0 dX0 =>
    ⟨fwd_run_output_dims lib fop X Y0, grad_run_output_dims lib gop X Y dY dX0⟩

lemma fwd_doRun_trace_ne_nil (lib : MiopenLib) (op : MIOPEN_LRNOP)
    (X Y : Tensor) :
    (MIOPEN_LRNOP.DoRunWithType lib op X Y).1 ≠ [] := by
  unfold MIOPEN_LRNOP.DoRunWithType
  by_cases hd : X.dims = op.miopen_input_dims_ <;>
    by_cases h4 : lib.set4dStatus (marshalDesc X) = 0 <;>
    simp_all <;>
    split <;>
    simp_all

lemma bindE_enforce_trace_ne_nil (ev : Event) (x : α)
    (f : α → List Event × Except CaffeError β) :
    (bindE (enforceCall ev x) f).1 ≠ [] := by
  unfold bindE enforceCall
  by_cases h : ev.status = 0 <;> simp [h]

lemma grad_doRun_trace_ne_nil (lib : MiopenLib) (op : MIOPENLRNGradientOp)
    (X Y dY dX : Tensor) :
    (MIOPENLRNGradientOp.DoRunWithType lib op X Y dY dX).1 ≠ [] := by
  unfold MIOPENLRNGradientOp.DoRunWithType MIOPENLRNGradientOp.computePhase
  by_cases hd : dY.dims = op.miopen_input_dims_
  · simp only [hd, ne_eq, not_true_eq_false, ite_false]
    simp only [bindE, pureE, List.nil_append]
    exact bindE_enforce_trace_ne_nil _ _ _
  · simp only [hd, ne_eq, not_false_eq_true, ite_true]
    unfold bindE enforceCall
    by_cases h4 : lib.set4dStatus (marshalDesc dY) = 0 <;>
      simp [h4, Event.status]

lemma fwd_run_trace (lib : MiopenLib) (op : MIOPEN_LRNOP) (X Y0 : Tensor)
    (hf : X.dtype = DType.float) :
    (MIOPEN_LRNOP.RunOnDevice lib op X Y0).trace =
      (MIOPEN_LRNOP.DoRunWithType lib op X (Y0.resizeLike X)).1 := by
  unfold MIOPEN_LRNOP.RunOnDevice
  simp only [hf, if_pos]
  rcases hr : MIOPEN_LRNOP.DoRunWithType lib op X (Y0.resizeLike X) with ⟨tr, r⟩
  rcases r with e | ⟨op1, Y1⟩ <;> simp

lemma grad_run_trace (lib : MiopenLib) (op : MIOPENLRNGradientOp)
    (X Y dY dX0 : Tensor) (hf : dY.dtype = DType.float) :
    (MIOPENLRNGradientOp.RunOnDevice lib op X Y dY dX0).trace =
      (MIOPENLRNGradientOp.DoRunWithType lib op X Y dY (dX0.resizeLike dY)).1 := by
  unfold MIOPENLRNGradientOp.RunOnDevice
  simp only [hf, if_pos]
  rcases hr : MIOPENLRNGradientOp.DoRunWithType lib op X Y dY (dX0.resizeLike dY)
    with ⟨tr, r⟩
  rcases r with e | ⟨op1, dX1⟩ <;> simp

/-- **C8.** For every run: if the dispatch tensor's element type (`X` for the
forward operator, `dY` for the gradient operator) is not `float`,
`RunOnDevice` fails with the fatal `"Unsupported input type"` error and makes
no vendor call at all; if the dispatch tensor holds `float` data, the run
proceeds to `DoRunWithType`'s vendor calls (the trace is `DoRunWithType`'s
and is never empty).  The gradient operator's check inspects only `dY`: the
`float` cases hold for arbitrary element types of `X` and `Y`. -/
theorem c8_float_dispatch :
    ∀ (lib : MiopenLib) (fop : MIOPEN_LRNOP) (gop : MIOPENLRNGradientOp)
      (X Y dY Y0 dX0 : Tensor),
      (X.dtype ≠ DType.float →
        (MIOPEN_LRNOP.RunOnDevice lib fop X Y0).result =
          Except.error (CaffeError.thrown "Unsupported input type") ∧
        (MIOPEN_LRNOP.RunOnDevice lib fop X Y0).trace = []) ∧
      (X.dtype = DType.float →
        (MIOPEN_LRNOP.RunOnDevice lib fop X Y0).trace =
          (MIOPEN_LRNOP.DoRunWithType lib fop X (Y0.resizeLike X)).1 ∧
        (MIOPEN_LRNOP.RunOnDevice lib fop X Y0).trace ≠ []) ∧
      (dY.dtype ≠ DType.float →
        (MIOPENLRNGradientOp.RunOnDevice lib gop X Y dY dX0).result =
          Except.error (CaffeError.thrown "Unsupported input type") ∧
        (MIOPENLRNGradientOp.RunOnDevice lib gop X Y dY dX0).trace = []) ∧
      (dY.dtype = DType.float →
        (MIOPENLRNGradientOp.RunOnDevice lib gop X Y dY dX0).trace =
          (MIOPENLRNGradientOp.DoRunWithType lib gop X Y dY
            (dX0.resizeLike dY)).1 ∧
        (MIOPENLRNGradientOp.RunOnDevice lib gop X Y dY dX0).trace ≠ []) := by
  intro lib fop gop X Y dY Y0 dX0
  refine ⟨fun hne => ?_, fun hf => ?_, fun hne => ?_, fun hf => ?_⟩
  · unfold MIOPEN_LRNOP.RunOnDevice
    simp [hne]
  · have ht := fwd_run_trace lib fop X Y0 hf
    exact ⟨ht, by
      rw [ht]
      exact fwd_doRun_trace_ne_nil lib fop X (Y0.resizeLike X)⟩
  · unfold MIOPENLRNGradientOp.RunOnDevice
    simp [hne]
  · have ht := grad_run_trace lib gop X Y dY dX0 hf
    exact ⟨ht, by
      rw [ht]
      exact grad_doRun_trace_ne_nil lib gop X Y dY (dX0.resizeLike dY)⟩

/-- Concrete instantiation of `c8_float_dispatch`: the gradient operator run
on a non-float `X` but float `dY` still proceeds to the vendor calls, and a
non-float `dY` yields the unsupported-type error with an empty trace. -/
theorem c8_float_dispatch_witness :
    tBad.dtype ≠ DType.float ∧ tdY.dtype = DType.float ∧
    ((MIOPENLRNGradientOp.RunOnDevice okLib gopEx tBad tY tdY tOut).trace =
        (MIOPENLRNGradientOp.DoRunWithType okLib gopEx tBad tY tdY
          (tOut.resizeLike tdY)).1 ∧
      (MIOPENLRNGradientOp.RunOnDevice okLib gopEx tBad tY tdY tOut).trace ≠
        []) ∧
    ((MIOPEN_LRNOP.RunOnDevice okLib fopEx tBad tOut).result =
        Except.error (CaffeError.thrown "Unsupported input type") ∧
      (MIOPEN_LRNOP.RunOnDevice okLib fopEx tBad tOut).trace = []) :=
  ⟨by decide, rfl,
    (c8_float_dispatch okLib fopEx gopEx tBad tY tdY tOut tOut).2.2.2 rfl,
    (c8_float_dispatch okLib fopEx gopEx tBad tY tdY tOut tOut).1 (by decide)⟩

lemma fwd_construct_ok {lib : MiopenLib} {args : OperatorArgs}
    {s : MIOPEN_LRNOP} (h : (MIOPEN_LRNOP.construct lib args).2 = Except.ok s) :
    s = { mode_ := LRNMode.crossChannel, size_ := args.size.getD 0,
          alpha_ := args.alpha.getD 0, beta_ := args.beta.getD 0,
          bias_ := args.bias.getD 1, data_desc_ := none,
          norm_desc_ := some ⟨LRNMode.crossChannel, args.size.getD 0,
            args.alpha.getD 0, args.beta.getD 0, args.bias.getD 1⟩,
          miopen_input_dims_ := [] } ∧
      Event.setLRNDesc ⟨LRNMode.crossChannel, args.size.getD 0,
        args.alpha.getD 0, args.beta.getD 0, args.bias.getD 1⟩ 0 ∈
        (MIOPEN_LRNOP.construct lib args).1 := by
  unfold MIOPEN_LRNOP.construct at h ⊢
  by_cases h1 : lib.createTensorDescStatus = 0 <;>
    by_cases h2 : lib.createLRNDescStatus = 0 <;>
      by_cases h3 : lib.setLRNDescStatus
        ⟨LRNMode.crossChannel, args.size.getD 0, args.alpha.getD 0,
          args.beta.getD 0, args.bias.getD 1⟩ = 0 <;>
    simp_all

lemma grad_construct_ok {lib : MiopenLib} {args : OperatorArgs}
    {s : MIOPENLRNGradientOp}
    (h : (MIOPENLRNGradientOp.construct lib args).2 = Except.ok s) :
    s = { mode_ := LRNMode.crossChannel, size_ := args.size.getD 0,
          alpha_ := args.alpha.getD 0, beta_ := args.beta.getD 0,
          bias_ := args.bias.getD 1,
          do_backward_ := args.do_backward.getD false,
          data_desc_ := none,
          norm_desc_ := some ⟨LRNMode.crossChannel, args.size.getD 0,
            args.alpha.getD 0, args.beta.getD 0, args.bias.getD 1⟩,
          miopen_input_dims_ := [], bwdLRNWs_ := none,
          bwdLRNScratch_ := none } ∧
      Event.setLRNDesc ⟨LRNMode.crossChannel, args.size.getD 0,
        args.alpha.getD 0, args.beta.getD 0, args.bias.getD 1⟩ 0 ∈
        (MIOPENLRNGradientOp.construct lib args).1 := by
  unfold MIOPENLRNGradientOp.construct at h ⊢
  by_cases h1 : lib.createTensorDescStatus = 0 <;>
    by_cases h2 : lib.createLRNDescStatus = 0 <;>
      by_cases h3 : lib.setLRNDescStatus
        ⟨LRNMode.crossChannel, args.size.getD 0, args.alpha.getD 0,
          args.beta.getD 0, args.bias.getD 1⟩ = 0 <;>
    simp_all

lemma fwd_run_ok {lib : MiopenLib} {op op1 : MIOPEN_LRNOP} {X Y0 : Tensor}
    (h : (MIOPEN_LRNOP.RunOnDevice lib op X Y0).result = Except.ok op1) :
    X.dtype = DType.float ∧
      ∃ Y1, (MIOPEN_LRNOP.DoRunWithType lib op X (Y0.resizeLike X)).2 =
        Except.ok (op1, Y1) ∧
        (MIOPEN_LRNOP.RunOnDevice lib op X Y0).output = Y1 := by
  unfold MIOPEN_LRNOP.RunOnDevice at h ⊢
  by_cases hf : X.dtype = DType.float
  · simp only [hf, if_pos] at h ⊢
    rcases hr : MIOPEN_LRNOP.DoRunWithType lib op X (Y0.resizeLike X) with
      ⟨tr, r⟩
    rcases r with e | ⟨op2, Y1⟩ <;> simp_all
  · simp_all

lemma grad_run_ok {lib : MiopenLib} {op op1 : MIOPENLRNGradientOp}
    {X Y dY dX0 : Tensor}
    (h : (MIOPENLRNGradientOp.RunOnDevice lib op X Y dY dX0).result =
      Except.ok op1) :
    dY.dtype = DType.float ∧
      ∃ dX1, (MIOPENLRNGradientOp.DoRunWithType lib op X Y dY
          (dX0.resizeLike dY)).2 = Except.ok (op1, dX1) ∧
        (MIOPENLRNGradientOp.RunOnDevice lib op X Y dY dX0).output = dX1 := by
  unfold MIOPENLRNGradientOp.RunOnDevice at h ⊢
  by_cases hf : dY.dtype = DType.float
  · simp only [hf, if_pos] at h ⊢
    rcases hr : MIOPENLRNGradientOp.DoRunWithType lib op X Y dY
      (dX0.resizeLike dY) with ⟨tr, r⟩
    rcases r with e | ⟨op2, dX1⟩ <;> simp_all
  · simp_all

/-- Every event of the trace has one of the given call kinds. -/
def KindsIn (tr : List Event) (ks : List EventKind) : Prop :=
  ∀ e ∈ tr, e.kind ∈ ks

lemma kindsIn_pureE (x : α) (ks : List EventKind) :
    KindsIn (pureE x).1 ks := by
  simp [KindsIn, pureE]

lemma kindsIn_enforceCall (ev : Event) (x : α) {ks : List EventKind}
    (hk : ev.kind ∈ ks) : KindsIn (enforceCall ev x).1 ks := by
  unfold KindsIn enforceCall
  by_cases h : ev.status = 0 <;> simp_all

lemma kindsIn_hipCheckCall (ev : Event) (x : α) {ks : List EventKind}
    (hk : ev.kind ∈ ks) : KindsIn (hipCheckCall ev x).1 ks := by
  unfold KindsIn hipCheckCall
  by_cases h : ev.status = 0 <;> simp_all

lemma kindsIn_bindE {a : List Event × Except CaffeError α}
    {f : α → List Event × Except CaffeError β} {ks : List EventKind}
    (ha : KindsIn a.1 ks) (hf : ∀ x, KindsIn (f x).1 ks) :
    KindsIn (bindE a f).1 ks := by
  unfold bindE
  rcases hr : a.2 with e | x <;> simp only [hr]
  · exact ha
  · intro ev hev
    rcases List.mem_append.mp hev with h | h
    · exact ha ev h
    · exact hf x ev h

lemma fwd_doRun_kinds (lib : MiopenLib) (op : MIOPEN_LRNOP) (X Y : Tensor) :
    KindsIn (MIOPEN_LRNOP.DoRunWithType lib op X Y).1
      [EventKind.set4dK, EventKind.fwdK] := by
  unfold KindsIn MIOPEN_LRNOP.DoRunWithType
  by_cases hd : X.dims = op.miopen_input_dims_ <;>
    by_cases h4 : lib.set4dStatus (marshalDesc X) = 0 <;>
    simp_all [Event.kind] <;>
    split <;>
    simp_all [Event.kind]

lemma grad_doRun_kinds (lib : MiopenLib) (op : MIOPENLRNGradientOp)
    (X Y dY dX : Tensor) :
    KindsIn (MIOPENLRNGradientOp.DoRunWithType lib op X Y dY dX).1
      [EventKind.set4dK, EventKind.wsQueryK, EventKind.mallocK,
        EventKind.fwdK, EventKind.bwdK] := by
  unfold MIOPENLRNGradientOp.DoRunWithType MIOPENLRNGradientOp.computePhase
  refine kindsIn_bindE ?_ (fun op1 => ?_)
  · split
    · exact kindsIn_enforceCall _ _ (by simp [Event.kind])
    · exact kindsIn_pureE _ _
  · refine kindsIn_bindE (kindsIn_enforceCall _ _ (by simp [Event.kind]))
      (fun wsSz => ?_)
    refine kindsIn_bindE ?_ (fun wsBuf0 => ?_)
    · rcases op1.bwdLRNWs_ with _ | b
      · exact kindsIn_hipCheckCall _ _ (by simp [Event.kind])
      · exact kindsIn_pureE _ _
    refine kindsIn_bindE ?_ (fun scrBuf0 => ?_)
    · rcases op1.bwdLRNScratch_ with _ | b
      · exact kindsIn_hipCheckCall _ _ (by simp [Event.kind])
      · exact kindsIn_pureE _ _
    refine kindsIn_bindE (kindsIn_enforceCall _ _ (by simp [Event.kind]))
      (fun fwdOut => ?_)
    exact kindsIn_bindE (kindsIn_enforceCall _ _ (by simp [Event.kind]))
      (fun dxData => kindsIn_pureE _ _)

lemma fwd_run_kinds (lib : MiopenLib) (op : MIOPEN_LRNOP) (X Y0 : Tensor) :
    KindsIn (MIOPEN_LRNOP.RunOnDevice lib op X Y0).trace
      [EventKind.set4dK, EventKind.fwdK] := by
  by_cases hf : X.dtype = DType.float
  · rw [fwd_run_trace lib op X Y0 hf]
    exact fwd_doRun_kinds lib op X (Y0.resizeLike X)
  · unfold MIOPEN_LRNOP.RunOnDevice
    simp [hf, KindsIn]

lemma grad_run_kinds (lib : MiopenLib) (op : MIOPENLRNGradientOp)
    (X Y dY dX0 : Tensor) :
    KindsIn (MIOPENLRNGradientOp.RunOnDevice lib op X Y dY dX0).trace
      [EventKind.set4dK, EventKind.wsQueryK, EventKind.mallocK,
        EventKind.fwdK, EventKind.bwdK] := by
  by_cases hf : dY.dtype = DType.float
  · rw [grad_run_trace lib op X Y dY dX0 hf]
    exact grad_doRun_kinds lib op X Y dY (dX0.resizeLike dY)
  · unfold MIOPENLRNGradientOp.RunOnDevice
    simp [hf, KindsIn]

/-- **C4.** At construction of either operator, the scalar hyperparameters
`size` (default 0), `alpha` (default 0), `beta` (default 0) and `bias`
(default 1) are read from the operator's arguments and passed unchanged —
together with the fixed cross-channel mode — to the vendor's
`miopenSetLRNDescriptor`; and the descriptor's hyperparameters never change
for the lifetime of the operator: no run ever performs another
`setLRNDescriptor` call, and a successful run preserves the stored mode,
scalars and LRN descriptor unchanged. -/
theorem c4_hyperparameters_marshaled_and_frozen :
    ∀ (lib : MiopenLib) (args : OperatorArgs) (fop fop1 : MIOPEN_LRNOP)
      (gop gop1 : MIOPENLRNGradientOp) (X Y dY Y0 dX0 : Tensor),
      (∀ s, (MIOPEN_LRNOP.construct lib args).2 = Except.ok s →
        s.mode_ = LRNMode.crossChannel ∧ s.size_ = args.size.getD 0 ∧
        s.alpha_ = args.alpha.getD 0 ∧ s.beta_ = args.beta.getD 0 ∧
        s.bias_ = args.bias.getD 1 ∧
        s.norm_desc_ = some ⟨LRNMode.crossChannel, args.size.getD 0,
          args.alpha.getD 0, args.beta.getD 0, args.bias.getD 1⟩ ∧
        Event.setLRNDesc ⟨LRNMode.crossChannel, args.size.getD 0,
          args.alpha.getD 0, args.beta.getD 0, args.bias.getD 1⟩ 0 ∈
          (MIOPEN_LRNOP.construct lib args).1) ∧
      (∀ s, (MIOPENLRNGradientOp.construct lib args).2 = Except.ok s →
        s.mode_ = LRNMode.crossChannel ∧ s.size_ = args.size.getD 0 ∧
        s.alpha_ = args.alpha.getD 0 ∧ s.beta_ = args.beta.getD 0 ∧
        s.bias_ = args.bias.getD 1 ∧
        s.norm_desc_ = some ⟨LRNMode.crossChannel, args.size.getD 0,
          args.alpha.getD 0, args.beta.getD 0, args.bias.getD 1⟩ ∧
        Event.setLRNDesc ⟨LRNMode.crossChannel, args.size.getD 0,
          args.alpha.getD 0, args.beta.getD 0, args.bias.getD 1⟩ 0 ∈
          (MIOPENLRNGradientOp.construct lib args).1) ∧
      (∀ e ∈ (MIOPEN_LRNOP.RunOnDevice lib fop X Y0).trace,
        e.kind ≠ EventKind.setLRNDescK) ∧
      (∀ e ∈ (MIOPENLRNGradientOp.RunOnDevice lib gop X Y dY dX0).trace,
        e.kind ≠ EventKind.setLRNDescK) ∧
      ((MIOPEN_LRNOP.RunOnDevice lib fop X Y0).result = Except.ok fop1 →
        fop1.mode_ = fop.mode_ ∧ fop1.size_ = fop.size_ ∧
        fop1.alpha_ = fop.alpha_ ∧ fop1.beta_ = fop.beta_ ∧
        fop1.bias_ = fop.bias_ ∧ fop1.norm_desc_ = fop.norm_desc_) ∧
      ((MIOPENLRNGradientOp.RunOnDevice lib gop X Y dY dX0).result =
          Except.ok gop1 →
        gop1.mode_ = gop.mode_ ∧ gop1.size_ = gop.size_ ∧
        gop1.alpha_ = gop.alpha_ ∧ gop1.beta_ = gop.beta_ ∧
        gop1.bias_ = gop.bias_ ∧ gop1.norm_desc_ = gop.norm_desc_) := by
  intro lib args fop fop1 gop gop1 X Y dY Y0 dX0
  refine ⟨fun s hs => ?_, fun s hs => ?_, ?_, ?_, fun hok => ?_, fun hok => ?_⟩
  · obtain ⟨h1, h2⟩ := fwd_construct_ok hs
    subst h1
    exact ⟨rfl, rfl, rfl, rfl, rfl, rfl, h2⟩
  · obtain ⟨h1, h2⟩ := grad_construct_ok hs
    subst h1
    exact ⟨rfl, rfl, rfl, rfl, rfl, rfl, h2⟩
  · intro e he
    have hk := fwd_run_kinds lib fop X Y0 e he
    simp only [List.mem_cons, List.not_mem_nil, or_false] at hk
    rcases hk with hk | hk <;> simp [hk]
  · intro e he
    have hk := grad_run_kinds lib gop X Y dY dX0 e he
    simp only [List.mem_cons, List.not_mem_nil, or_false] at hk
    rcases hk with hk | hk | hk | hk | hk <;> simp [hk]
  · obtain ⟨-, Y1, hdo, -⟩ := fwd_run_ok hok
    obtain ⟨opd, hopd, -, -, hop1, -, -⟩ := fwd_doRun_ok_elim hdo
    subst hop1
    by_cases hd : X.dims = fop.miopen_input_dims_ <;> simp [hd] at hopd <;>
      subst hopd <;> exact ⟨rfl, rfl, rfl, rfl, rfl, rfl⟩
  · obtain ⟨-, dX1, hdo, -⟩ := grad_run_ok hok
    obtain ⟨opd, hopd, -, -, -, -, -, -, hop1, -, -⟩ := grad_doRun_ok_elim hdo
    subst hop1
    by_cases hd : dY.dims = gop.miopen_input_dims_ <;> simp [hd] at hopd <;>
      subst hopd <;> exact ⟨rfl, rfl, rfl, rfl, rfl, rfl⟩

/-- Concrete instantiation of `c4_hyperparameters_marshaled_and_frozen`: the
forward operator constructed from `argsEx` reads size 5, alpha 2, beta 3,
bias 7, records them in the LRN descriptor with cross-channel mode, and a
successful run preserves them. -/
theorem c4_hyperparameters_witness :
    (MIOPEN_LRNOP.construct okLib argsEx).2 = Except.ok fopEx ∧
    (fopEx.mode_ = LRNMode.crossChannel ∧ fopEx.size_ = argsEx.size.getD 0 ∧
      fopEx.alpha_ = argsEx.alpha.getD 0 ∧ fopEx.beta_ = argsEx.beta.getD 0 ∧
      fopEx.bias_ = argsEx.bias.getD 1 ∧
      fopEx.norm_desc_ = some ⟨LRNMode.crossChannel, argsEx.size.getD 0,
        argsEx.alpha.getD 0, argsEx.beta.getD 0, argsEx.bias.getD 1⟩ ∧
      Event.setLRNDesc ⟨LRNMode.crossChannel, argsEx.size.getD 0,
        argsEx.alpha.getD 0, argsEx.beta.getD 0, argsEx.bias.getD 1⟩ 0 ∈
        (MIOPEN_LRNOP.construct okLib argsEx).1) :=
  ⟨rfl,
    (c4_hyperparameters_marshaled_and_frozen okLib argsEx fopEx fopEx gopEx
      gopEx tX tY tdY tOut tOut).1 fopEx rfl⟩

/-- Every buffer any event of the trace lets the library write to is among
the given roles. -/
def WritesIn (tr : List Event) (rs : List Role) : Prop :=
  ∀ e ∈ tr, ∀ r ∈ e.writes, r ∈ rs

lemma writesIn_pureE (x : α) (rs : List Role) : WritesIn (pureE x).1 rs := by
  simp [WritesIn, pureE]

lemma writesIn_enforceCall (ev : Event) (x : α) {rs : List Role}
    (hw : ∀ r ∈ ev.writes, r ∈ rs) : WritesIn (enforceCall ev x).1 rs := by
  unfold WritesIn enforceCall
  by_cases h : ev.status = 0 <;> simp_all

lemma writesIn_hipCheckCall (ev : Event) (x : α) {rs : List Role}
    (hw : ∀ r ∈ ev.writes, r ∈ rs) : WritesIn (hipCheckCall ev x).1 rs := by
  unfold WritesIn hipCheckCall
  by_cases h : ev.status = 0 <;> simp_all

lemma writesIn_bindE {a : List Event × Except CaffeError α}
    {f : α → List Event × Except CaffeError β} {rs : List Role}
    (ha : WritesIn a.1 rs) (hf : ∀ x, WritesIn (f x).1 rs) :
    WritesIn (bindE a f).1 rs := by
  unfold bindE
  rcases hr : a.2 with e | x <;> simp only [hr]
  · exact ha
  · intro ev hev
    rcases List.mem_append.mp hev with h | h
    · exact ha ev h
    · exact hf x ev h

lemma fwd_doRun_writes (lib : MiopenLib) (op : MIOPEN_LRNOP) (X Y : Tensor) :
    WritesIn (MIOPEN_LRNOP.DoRunWithType lib op X Y).1 [Role.outY] := by
  unfold WritesIn MIOPEN_LRNOP.DoRunWithType
  by_cases hd : X.dims = op.miopen_input_dims_ <;>
    by_cases h4 : lib.set4dStatus (marshalDesc X) = 0 <;>
    simp_all [Event.writes] <;>
    split <;>
    simp_all [Event.writes]

lemma grad_doRun_writes (lib : MiopenLib) (op : MIOPENLRNGradientOp)
    (X Y dY dX : Tensor) :
    WritesIn (MIOPENLRNGradientOp.DoRunWithType lib op X Y dY dX).1
      [Role.outDX, Role.scratch, Role.wsBuf] := by
  unfold MIOPENLRNGradientOp.DoRunWithType MIOPENLRNGradientOp.computePhase
  refine writesIn_bindE ?_ (fun op1 => ?_)
  · split
    · exact writesIn_enforceCall _ _ (by simp [Event.writes])
    · exact writesIn_pureE _ _
  · refine writesIn_bindE (writesIn_enforceCall _ _ (by simp [Event.writes]))
      (fun wsSz => ?_)
    refine writesIn_bindE ?_ (fun wsBuf0 => ?_)
    · rcases op1.bwdLRNWs_ with _ | b
      · exact writesIn_hipCheckCall _ _ (by simp [Event.writes])
      · exact writesIn_pureE _ _
    refine writesIn_bindE ?_ (fun scrBuf0 => ?_)
    · rcases op1.bwdLRNScratch_ with _ | b
      · exact writesIn_hipCheckCall _ _ (by simp [Event.writes])
      · exact writesIn_pureE _ _
    refine writesIn_bindE (writesIn_enforceCall _ _ (by simp [Event.writes]))
      (fun fwdOut => ?_)
    exact writesIn_bindE (writesIn_enforceCall _ _ (by simp [Event.writes]))
      (fun dxData => writesIn_pureE _ _)

lemma fwd_run_writes (lib : MiopenLib) (op : MIOPEN_LRNOP) (X Y0 : Tensor) :
    WritesIn (MIOPEN_LRNOP.RunOnDevice lib op X Y0).trace [Role.outY] := by
  by_cases hf : X.dtype = DType.float
  · rw [fwd_run_trace lib op X Y0 hf]
    exact fwd_doRun_writes lib op X (Y0.resizeLike X)
  · unfold MIOPEN_LRNOP.RunOnDevice
    simp [hf, WritesIn]

lemma grad_run_writes (lib : MiopenLib) (op : MIOPENLRNGradientOp)
    (X Y dY dX0 : Tensor) :
    WritesIn (MIOPENLRNGradientOp.RunOnDevice lib op X Y dY dX0).trace
      [Role.outDX, Role.scratch, Role.wsBuf] := by
  by_cases hf : dY.dtype = DType.float
  · rw [grad_run_trace lib op X Y dY dX0 hf]
    exact grad_doRun_writes lib op X Y dY (dX0.resizeLike dY)
  · unfold MIOPENLRNGradientOp.RunOnDevice
    simp [hf, WritesIn]

/-- **C5.** On every run (all paths, also failing ones), the only buffers the
adapter ever passes to the vendor library as write destinations are the
declared output (`Y` for the forward operator; `dX`, plus the operator's two
internal device buffers, for the gradient operator); the input tensors `X`,
`Y`, `dY` are passed as read-only data and are never a write destination of
any call. -/
theorem c5_inputs_read_only_outputs_written :
    ∀ (lib : MiopenLib) (fop : MIOPEN_LRNOP) (gop : MIOPENLRNGradientOp)
      (X Y dY Y0 dX0 : Tensor),
      WritesIn (MIOPEN_LRNOP.RunOnDevice lib fop X Y0).trace [Role.outY] ∧
      WritesIn (MIOPENLRNGradientOp.RunOnDevice lib gop X Y dY dX0).trace
        [Role.outDX, Role.scratch, Role.wsBuf] ∧
      (∀ e ∈ (MIOPEN_LRNOP.RunOnDevice lib fop X Y0).trace, ∀ r ∈ e.writes,
        r ≠ Role.inX ∧ r ≠ Role.inY ∧ r ≠ Role.indY) ∧
      (∀ e ∈ (MIOPENLRNGradientOp.RunOnDevice lib gop X Y dY dX0).trace,
        ∀ r ∈ e.writes, r ≠ Role.inX ∧ r ≠ Role.inY ∧ r ≠ Role.indY) := by
  intro lib fop gop X Y dY Y0 dX0
  have h1 := fwd_run_writes lib fop X Y0
  have h2 := grad_run_writes lib gop X Y dY dX0
  refine ⟨h1, h2, fun e he r hr => ?_, fun e he r hr => ?_⟩
  · have := h1 e he r hr
    simp only [List.mem_cons, List.not_mem_nil, or_false] at this
    simp [this]
  · have := h2 e he r hr
    simp only [List.mem_cons, List.not_mem_nil, or_false] at this
    rcases this with h | h | h <;> simp [h]

/-- Whether this call is one of the three vendor entry points the gradient
operator drives per run: the workspace-size query, the forward entry point,
the backward entry point. -/
def Event.isEntryPointCall (e : Event) : Bool :=
  decide (e.kind = EventKind.wsQueryK) || decide (e.kind = EventKind.fwdK) ||
    decide (e.kind = EventKind.bwdK)

/-- **C2.** On every successful run of the gradient operator (float input),
the vendor entry points are invoked exactly once each and in this order:
workspace-size query, then the forward entry point, then the backward entry
point.  The forward call's write destination is the internal scratch buffer
— not the declared output `dX` — with its workspace argument the internal
workspace buffer, and the backward call writes into `dX`. -/
theorem c2_gradient_call_order :
    ∀ (lib : MiopenLib) (gop gop1 : MIOPENLRNGradientOp) (X Y dY dX0 : Tensor),
      (MIOPENLRNGradientOp.RunOnDevice lib gop X Y dY dX0).result =
        Except.ok gop1 →
      (((MIOPENLRNGradientOp.RunOnDevice lib gop X Y dY dX0).trace.filter
          Event.isEntryPointCall).map Event.kind =
        [EventKind.wsQueryK, EventKind.fwdK, EventKind.bwdK]) ∧
      (∀ p a xd x b yd dst dob ws st,
        Event.lrnFwd p a xd x b yd dst dob ws st ∈
          (MIOPENLRNGradientOp.RunOnDevice lib gop X Y dY dX0).trace →
        dst = Role.scratch ∧ dob = true ∧ ws = Role.wsBuf) ∧
      (∀ p a yd y dyd dy xd x b dxd dst ws st,
        Event.lrnBwd p a yd y dyd dy xd x b dxd dst ws st ∈
          (MIOPENLRNGradientOp.RunOnDevice lib gop X Y dY dX0).trace →
        dst = Role.outDX) := by
  intro lib gop gop1 X Y dY dX0 hok
  obtain ⟨hf, dX1, hdo, -⟩ := grad_run_ok hok
  obtain ⟨opd, -, -, -, -, -, -, -, -, -, htr⟩ := grad_doRun_ok_elim hdo
  rw [grad_run_trace lib gop X Y dY dX0 hf, htr]
  by_cases hd : dY.dims = gop.miopen_input_dims_ <;>
    rcases hw : opd.bwdLRNWs_ with _ | wb <;>
    rcases hsc : opd.bwdLRNScratch_ with _ | sb <;>
    refine ⟨?_, fun p a xd x b yd dst dob ws st hmem => ?_,
      fun p a yd y dyd dy xd x b dxd dst ws st hmem => ?_⟩ <;>
    simp_all [Event.isEntryPointCall, Event.kind]

/-- Concrete instantiation of `c2_gradient_call_order` on `okLib` and the
freshly constructed gradient operator. -/
theorem c2_gradient_call_order_witness :
    (MIOPENLRNGradientOp.RunOnDevice okLib gopEx tX tY tdY tOut).result =
      Except.ok
        { gopEx with
            data_desc_ := some ⟨DType.float, 1, 1, 2, 2⟩
            miopen_input_dims_ := [1, 1, 2, 2]
            bwdLRNWs_ := some ⟨8, [7, 7]⟩
            bwdLRNScratch_ := some ⟨16, [2, 3, 4, 5]⟩ } ∧
    (((MIOPENLRNGradientOp.RunOnDevice okLib gopEx tX tY tdY tOut).trace.filter
        Event.isEntryPointCall).map Event.kind =
      [EventKind.wsQueryK, EventKind.fwdK, EventKind.bwdK]) :=
  ⟨rfl,
    (c2_gradient_call_order okLib gopEx _ tX tY tdY tOut rfl).1⟩

/-- **C3.** With the dispatch tensor 4-dimensional, the shape marshaled into
the vendor's 4-D tensor descriptor is `(N, C, H, W)` taken from dimensions
0 through 3 of the dispatch tensor — `X` for the forward operator, `dY`
(not `X`) for the gradient operator — with the float element type; and that
one descriptor is passed for every tensor argument of the subsequent library
calls (`x` and `y` of the forward call; `y`, `dy`, `x` and `dx` of the
backward call). -/
theorem c3_descriptor_marshaled_from_dispatch_tensor :
    ∀ (lib : MiopenLib) (fop fop1 : MIOPEN_LRNOP)
      (gop gop1 : MIOPENLRNGradientOp) (X Y dY Y0 dX0 : Tensor),
      (X.dims.length = 4 →
        (MIOPEN_LRNOP.RunOnDevice lib fop X Y0).result = Except.ok fop1 →
        (X.dims ≠ fop.miopen_input_dims_ →
          fop1.data_desc_ = some ⟨DType.float, X.dim32 0, X.dim32 1,
            X.dim32 2, X.dim32 3⟩ ∧
          Event.set4dTensorDesc ⟨DType.float, X.dim32 0, X.dim32 1,
            X.dim32 2, X.dim32 3⟩ 0 ∈
            (MIOPEN_LRNOP.RunOnDevice lib fop X Y0).trace) ∧
        (∀ p a xd x b yd dst dob ws st,
          Event.lrnFwd p a xd x b yd dst dob ws st ∈
            (MIOPEN_LRNOP.RunOnDevice lib fop X Y0).trace →
          xd = fop1.data_desc_ ∧ yd = fop1.data_desc_)) ∧
      (dY.dims.length = 4 →
        (MIOPENLRNGradientOp.RunOnDevice lib gop X Y dY dX0).result =
          Except.ok gop1 →
        (dY.dims ≠ gop.miopen_input_dims_ →
          gop1.data_desc_ = some ⟨DType.float, dY.dim32 0, dY.dim32 1,
            dY.dim32 2, dY.dim32 3⟩ ∧
          Event.set4dTensorDesc ⟨DType.float, dY.dim32 0, dY.dim32 1,
            dY.dim32 2, dY.dim32 3⟩ 0 ∈
            (MIOPENLRNGradientOp.RunOnDevice lib gop X Y dY dX0).trace) ∧
        (∀ p a xd x b yd dst dob ws st,
          Event.lrnFwd p a xd x b yd dst dob ws st ∈
            (MIOPENLRNGradientOp.RunOnDevice lib gop X Y dY dX0).trace →
          xd = gop1.data_desc_ ∧ yd = gop1.data_desc_) ∧
        (∀ p a yd y dyd dy xd x b dxd dst ws st,
          Event.lrnBwd p a yd y dyd dy xd x b dxd dst ws st ∈
            (MIOPENLRNGradientOp.RunOnDevice lib gop X Y dY dX0).trace →
          yd = gop1.data_desc_ ∧ dyd = gop1.data_desc_ ∧
          xd = gop1.data_desc_ ∧ dxd = gop1.data_desc_)) := by
  intro lib fop fop1 gop gop1 X Y dY Y0 dX0
  constructor
  · intro _ hok
    obtain ⟨hf, Y1, hdo, -⟩ := fwd_run_ok hok
    obtain ⟨opd, hopd, -, -, hop1, -, htr⟩ := fwd_doRun_ok_elim hdo
    subst hop1
    rw [fwd_run_trace lib fop X Y0 hf, htr]
    constructor
    · intro hne
      rw [if_neg hne] at hopd ⊢
      subst hopd
      exact ⟨rfl, by simp [marshalDesc, marshalDims, Tensor.dim32]⟩
    · intro p a xd x b yd dst dob ws st hmem
      rcases List.mem_append.mp hmem with h | h
      · by_cases hd : X.dims = fop.miopen_input_dims_ <;> simp_all
      · simp_all
  · intro _ hok
    obtain ⟨hf, dX1, hdo, -⟩ := grad_run_ok hok
    obtain ⟨opd, hopd, -, -, -, -, -, -, hop1, -, htr⟩ := grad_doRun_ok_elim hdo
    have hdesc : gop1.data_desc_ = opd.data_desc_ := by rw [hop1]
    rw [grad_run_trace lib gop X Y dY dX0 hf, htr]
    refine ⟨?_, ?_, ?_⟩
    · intro hne
      rw [if_neg hne] at hopd ⊢
      rw [hdesc, hopd]
      refine ⟨rfl, ?_⟩
      simp [marshalDesc, marshalDims, Tensor.dim32]
    · intro p a xd x b yd dst dob ws st hmem
      rw [hdesc]
      rcases hw : opd.bwdLRNWs_ with _ | wb <;>
        rcases hsc : opd.bwdLRNScratch_ with _ | sb <;>
        by_cases hd : dY.dims = gop.miopen_input_dims_ <;>
        simp_all
    · intro p a yd y dyd dy xd x b dxd dst ws st hmem
      rw [hdesc]
      rcases hw : opd.bwdLRNWs_ with _ | wb <;>
        rcases hsc : opd.bwdLRNScratch_ with _ | sb <;>
        by_cases hd : dY.dims = gop.miopen_input_dims_ <;>
        simp_all

/-- Concrete instantiation of `c3_descriptor_marshaled_from_dispatch_tensor`:
running the gradient operator on the 4-D `tdY` sets the descriptor to
`(1, 1, 2, 2)` with float type and uses it for the forward call's tensor
arguments. -/
theorem c3_descriptor_witness :
    tdY.dims.length = 4 ∧ tdY.dims ≠ gopEx.miopen_input_dims_ ∧
    ({ gopEx with
        data_desc_ := some ⟨DType.float, 1, 1, 2, 2⟩
        miopen_input_dims_ := [1, 1, 2, 2]
        bwdLRNWs_ := some ⟨8, [7, 7]⟩
        bwdLRNScratch_ := some ⟨16, [2, 3, 4, 5]⟩ } :
      MIOPENLRNGradientOp).data_desc_ =
      some ⟨DType.float, tdY.dim32 0, tdY.dim32 1, tdY.dim32 2, tdY.dim32 3⟩ ∧
    Event.set4dTensorDesc ⟨DType.float, tdY.dim32 0, tdY.dim32 1, tdY.dim32 2,
        tdY.dim32 3⟩ 0 ∈
      (MIOPENLRNGradientOp.RunOnDevice okLib gopEx tX tY tdY tOut).trace :=
  ⟨rfl, by decide,
    ((c3_descriptor_marshaled_from_dispatch_tensor okLib fopEx fopEx gopEx _
        tX tY tdY tOut tOut).2 rfl rfl).1 (by decide)⟩

/-- Spec-side description of the forward operator, following the spec's words
("a thin adapter that forwards tensor data and hyperparameters to a vendor
GPU deep-learning primitives library"): the produced output data is exactly
the vendor forward entry point applied to the marshaled shape descriptor,
the LRN descriptor and the raw input data — no arithmetic of the adapter's
own. -/
def lrnForwardDelegation (lib : MiopenLib) (p : LRNDesc) (a b : Rat)
    (X : Tensor) : List Int :=
  (lib.fwd p a (some (marshalDesc X)) X.data b (some (marshalDesc X))
    false).2.1

/-- Spec-side description of the gradient operator: the produced gradient
data is exactly the vendor backward entry point applied to the marshaled
descriptor, the inputs' raw data, and the workspace populated by the vendor
forward entry point. -/
def lrnGradientDelegation (lib : MiopenLib) (p : LRNDesc) (a b : Rat)
    (X Y dY : Tensor) : List Int :=
  (lib.bwd p a (some (marshalDesc dY)) Y.data (some (marshalDesc dY)) dY.data
    (some (marshalDesc dY)) X.data b (some (marshalDesc dY))
    (lib.fwd p a (some (marshalDesc dY)) X.data b (some (marshalDesc dY))
      true).2.2).2

/-- Consistency of a reachable operator state: either no dims were cached
yet (fresh construction), or the descriptor object holds exactly the shape
marshaled from the cached dims (established by the last descriptor set). -/
def MIOPEN_LRNOP.descConsistent (op : MIOPEN_LRNOP) : Prop :=
  op.miopen_input_dims_ = [] ∨
    op.data_desc_ = some (marshalDims op.miopen_input_dims_)

/-- Same consistency notion for the gradient operator. -/
def MIOPENLRNGradientOp.descConsistent (op : MIOPENLRNGradientOp) : Prop :=
  op.miopen_input_dims_ = [] ∨
    op.data_desc_ = some (marshalDims op.miopen_input_dims_)

lemma fwd_desc_after (lib : MiopenLib) {op op1 : MIOPEN_LRNOP} {X Y Y1 : Tensor}
    (h4 : X.dims.length = 4) (hc : op.descConsistent)
    (hdo : (MIOPEN_LRNOP.DoRunWithType lib op X Y).2 = Except.ok (op1, Y1)) :
    op1.data_desc_ = some (marshalDesc X) ∧
      op1.norm_desc_ = op.norm_desc_ ∧ op1.alpha_ = op.alpha_ ∧
      op1.beta_ = op.beta_ ∧
      Y1 = { Y with
              dtype := DType.float
              data := (lib.fwd op1.norm_desc_ op1.alpha_ op1.data_desc_ X.data
                op1.beta_ op1.data_desc_ false).2.1 } := by
  obtain ⟨opd, hopd, -, -, hop1, hY1, -⟩ := fwd_doRun_ok_elim hdo
  subst hop1
  by_cases hd : X.dims = op.miopen_input_dims_
  · rw [if_pos hd] at hopd
    subst hopd
    rcases hc with hc | hc
    · exact absurd (hd ▸ hc) (by intro hnil; rw [hnil] at h4; simp at h4)
    · rw [← hd] at hc
      exact ⟨hc, rfl, rfl, rfl, hY1⟩
  · rw [if_neg hd] at hopd
    subst hopd
    exact ⟨rfl, rfl, rfl, rfl, hY1⟩

lemma grad_desc_after (lib : MiopenLib) {op op1 : MIOPENLRNGradientOp}
    {X Y dY dX dX1 : Tensor}
    (h4 : dY.dims.length = 4) (hc : op.descConsistent)
    (hdo : (MIOPENLRNGradientOp.DoRunWithType lib op X Y dY dX).2 =
      Except.ok (op1, dX1)) :
    ∃ opd : MIOPENLRNGradientOp,
      opd.data_desc_ = some (marshalDesc dY) ∧
      opd.norm_desc_ = op.norm_desc_ ∧ opd.alpha_ = op.alpha_ ∧
      opd.beta_ = op.beta_ ∧
      dX1 = { dX with
              dtype := DType.float
              data := (lib.bwd opd.norm_desc_ opd.alpha_ opd.data_desc_ Y.data
                opd.data_desc_ dY.data opd.data_desc_ X.data opd.beta_
                opd.data_desc_
                (lib.fwd opd.norm_desc_ opd.alpha_ opd.data_desc_ X.data
                  opd.beta_ opd.data_desc_ true).2.2).2 } := by
  obtain ⟨opd, hopd, -, -, -, -, -, -, -, hdX1, -⟩ := grad_doRun_ok_elim hdo
  refine ⟨opd, ?_, ?_, ?_, ?_, hdX1⟩ <;>
    by_cases hd : dY.dims = op.miopen_input_dims_
  · rw [if_pos hd] at hopd
    subst hopd
    rcases hc with hc | hc
    · exact absurd (hd ▸ hc) (by intro hnil; rw [hnil] at h4; simp at h4)
    · rw [← hd] at hc
      exact hc
  · rw [if_neg hd] at hopd
    subst hopd
    rfl
  all_goals
    first
      | (rw [if_pos hd] at hopd; subst hopd; rfl)
      | (rw [if_neg hd] at hopd; subst hopd; rfl)

/-- **C7.** The adapter performs no normalization arithmetic of its own: on
every successful run (from any consistent reachable state, with a 4-D
dispatch tensor), the data written into the declared output tensor is
exactly the result of the opaque vendor library applied to the marshaled
arguments — the forward operator equals `lrnForwardDelegation` and the
gradient operator equals `lrnGradientDelegation`. -/
theorem c7_adapter_is_pure_delegation :
    ∀ (lib : MiopenLib) (fop fop1 : MIOPEN_LRNOP)
      (gop gop1 : MIOPENLRNGradientOp) (X Y dY Y0 dX0 : Tensor),
      (X.dims.length = 4 → fop.descConsistent →
        (MIOPEN_LRNOP.RunOnDevice lib fop X Y0).result = Except.ok fop1 →
        (MIOPEN_LRNOP.RunOnDevice lib fop X Y0).output.data =
          lrnForwardDelegation lib fop.norm_desc_ fop.alpha_ fop.beta_ X) ∧
      (dY.dims.length = 4 → gop.descConsistent →
        (MIOPENLRNGradientOp.RunOnDevice lib gop X Y dY dX0).result =
          Except.ok gop1 →
        (MIOPENLRNGradientOp.RunOnDevice lib gop X Y dY dX0).output.data =
          lrnGradientDelegation lib gop.norm_desc_ gop.alpha_ gop.beta_
            X Y dY) := by
  intro lib fop fop1 gop gop1 X Y dY Y0 dX0
  constructor
  · intro h4 hc hok
    obtain ⟨hf, Y1, hdo, hout⟩ := fwd_run_ok hok
    obtain ⟨hdesc, hnorm, ha, hb, hY1⟩ := fwd_desc_after lib h4 hc hdo
    rw [hout, hY1]
    simp only [lrnForwardDelegation, hdesc, hnorm, ha, hb]
  · intro h4 hc hok
    obtain ⟨hf, dX1, hdo, hout⟩ := grad_run_ok hok
    obtain ⟨opd, hdesc, hnorm, ha, hb, hdX1⟩ := grad_desc_after lib h4 hc hdo
    rw [hout, hdX1]
    simp only [lrnGradientDelegation, hdesc, hnorm, ha, hb]

/-- Concrete instantiation of `c7_adapter_is_pure_delegation` on `okLib`:
the forward run's output data is the library's forward result `[2, 3, 4, 5]`
and the gradient run's output data is the library's backward result
`[18, 20, 22, 24]`. -/
theorem c7_delegation_witness :
    tX.dims.length = 4 ∧ fopEx.descConsistent ∧
    tdY.dims.length = 4 ∧ gopEx.descConsistent ∧
    (MIOPEN_LRNOP.RunOnDevice okLib fopEx tX tOut).output.data =
      lrnForwardDelegation okLib fopEx.norm_desc_ fopEx.alpha_ fopEx.beta_
        tX ∧
    (MIOPENLRNGradientOp.RunOnDevice okLib gopEx tX tY tdY tOut).output.data =
      lrnGradientDelegation okLib gopEx.norm_desc_ gopEx.alpha_ gopEx.beta_
        tX tY tdY :=
  ⟨rfl, Or.inl rfl, rfl, Or.inl rfl,
    (c7_adapter_is_pure_delegation okLib fopEx
      { fopEx with
          data_desc_ := some ⟨DType.float, 1, 1, 2, 2⟩
          miopen_input_dims_ := [1, 1, 2, 2] }
      gopEx gopEx tX tY tdY tOut tOut).1 rfl (Or.inl rfl) rfl,
    (c7_adapter_is_pure_delegation okLib fopEx fopEx gopEx
      { gopEx with
          data_desc_ := some ⟨DType.float, 1, 1, 2, 2⟩
          miopen_input_dims_ := [1, 1, 2, 2]
          bwdLRNWs_ := some ⟨8, [7, 7]⟩
          bwdLRNScratch_ := some ⟨16, [2, 3, 4, 5]⟩ }
      tX tY tdY tOut tOut).2 rfl (Or.inl rfl) rfl⟩

lemma gradComputePhase_kinds (lib : MiopenLib) (op1 : MIOPENLRNGradientOp)
    (X Y dY dX : Tensor) :
    KindsIn (MIOPENLRNGradientOp.computePhase lib op1 X Y dY dX).1
      [EventKind.wsQueryK, EventKind.mallocK, EventKind.fwdK,
        EventKind.bwdK] := by
  unfold MIOPENLRNGradientOp.computePhase
  refine kindsIn_bindE (kindsIn_enforceCall _ _ (by simp [Event.kind]))
    (fun wsSz => ?_)
  refine kindsIn_bindE ?_ (fun wsBuf0 => ?_)
  · rcases op1.bwdLRNWs_ with _ | b
    · exact kindsIn_hipCheckCall _ _ (by simp [Event.kind])
    · exact kindsIn_pureE _ _
  refine kindsIn_bindE ?_ (fun scrBuf0 => ?_)
  · rcases op1.bwdLRNScratch_ with _ | b
    · exact kindsIn_hipCheckCall _ _ (by simp [Event.kind])
    · exact kindsIn_pureE _ _
  refine kindsIn_bindE (kindsIn_enforceCall _ _ (by simp [Event.kind]))
    (fun fwdOut => ?_)
  exact kindsIn_bindE (kindsIn_enforceCall _ _ (by simp [Event.kind]))
    (fun dxData => kindsIn_pureE _ _)

lemma fwd_doRun_no_set4d_on_cache_hit (lib : MiopenLib) (op : MIOPEN_LRNOP)
    (X Y : Tensor) (hd : X.dims = op.miopen_input_dims_) :
    ∀ d st, Event.set4dTensorDesc d st ∉
      (MIOPEN_LRNOP.DoRunWithType lib op X Y).1 := by
  intro d st
  unfold MIOPEN_LRNOP.DoRunWithType
  simp only [hd, ne_eq, not_true_eq_false, ite_false, ite_true]
  by_cases hs : (lib.fwd op.norm_desc_ op.alpha_ op.data_desc_ X.data
      op.beta_ op.data_desc_ false).1 = 0 <;> simp [hs]

lemma grad_doRun_no_set4d_on_cache_hit (lib : MiopenLib)
    (op : MIOPENLRNGradientOp) (X Y dY dX : Tensor)
    (hd : dY.dims = op.miopen_input_dims_) :
    ∀ d st, Event.set4dTensorDesc d st ∉
      (MIOPENLRNGradientOp.DoRunWithType lib op X Y dY dX).1 := by
  intro d st hmem
  unfold MIOPENLRNGradientOp.DoRunWithType at hmem
  simp only [hd, ne_eq, not_true_eq_false, ite_false, ite_true] at hmem
  simp only [bindE, pureE, List.nil_append] at hmem
  have hk := gradComputePhase_kinds lib op X Y dY dX _ hmem
  simp [Event.kind] at hk

/-- **C10.** The gradient operator's workspace and scratch buffers are null
at construction; on a successful run each is allocated exactly if it was
still null — the workspace sized by that run's workspace-size query and the
scratch by `X.size() * 4` bytes — and an already-allocated buffer is kept
with its original size, with no allocation and no free call on any run
(runs never emit a free); and in both operators the tensor descriptor is
re-set only on runs whose dispatch dims differ from the cached dims: on a
cache hit no `set4dTensorDescriptor` call occurs. -/
theorem c10_buffers_allocated_once_descriptor_cached :
    ∀ (lib : MiopenLib) (args : OperatorArgs) (fop : MIOPEN_LRNOP)
      (gop gop1 : MIOPENLRNGradientOp) (X Y dY Y0 dX0 : Tensor)
      (wsb scrb : DevBuf),
      (∀ s, (MIOPENLRNGradientOp.construct lib args).2 = Except.ok s →
        s.bwdLRNWs_ = none ∧ s.bwdLRNScratch_ = none) ∧
      ((MIOPENLRNGradientOp.RunOnDevice lib gop X Y dY dX0).result =
          Except.ok gop1 →
        (gop.bwdLRNWs_ = some wsb →
          (∃ d, gop1.bwdLRNWs_ = some ⟨wsb.bytes, d⟩) ∧
          ∀ sz st, Event.hipMallocEv Role.wsBuf sz st ∉
            (MIOPENLRNGradientOp.RunOnDevice lib gop X Y dY dX0).trace) ∧
        (gop.bwdLRNScratch_ = some scrb →
          (∃ d, gop1.bwdLRNScratch_ = some ⟨scrb.bytes, d⟩) ∧
          ∀ sz st, Event.hipMallocEv Role.scratch sz st ∉
            (MIOPENLRNGradientOp.RunOnDevice lib gop X Y dY dX0).trace) ∧
        (gop.bwdLRNWs_ = none →
          ∃ sz d, gop1.bwdLRNWs_ = some ⟨sz, d⟩ ∧
            Event.getWorkSpaceSize gop1.data_desc_ sz 0 ∈
              (MIOPENLRNGradientOp.RunOnDevice lib gop X Y dY dX0).trace ∧
            Event.hipMallocEv Role.wsBuf sz 0 ∈
              (MIOPENLRNGradientOp.RunOnDevice lib gop X Y dY dX0).trace) ∧
        (gop.bwdLRNScratch_ = none →
          ∃ d, gop1.bwdLRNScratch_ = some ⟨X.numElems * 4, d⟩ ∧
            Event.hipMallocEv Role.scratch (X.numElems * 4) 0 ∈
              (MIOPENLRNGradientOp.RunOnDevice lib gop X Y dY dX0).trace)) ∧
      (∀ e ∈ (MIOPENLRNGradientOp.RunOnDevice lib gop X Y dY dX0).trace,
        e.kind ≠ EventKind.freeK) ∧
      (X.dims = fop.miopen_input_dims_ →
        ∀ d st, Event.set4dTensorDesc d st ∉
          (MIOPEN_LRNOP.RunOnDevice lib fop X Y0).trace) ∧
      (dY.dims = gop.miopen_input_dims_ →
        ∀ d st, Event.set4dTensorDesc d st ∉
          (MIOPENLRNGradientOp.RunOnDevice lib gop X Y dY dX0).trace) := by
  intro lib args fop gop gop1 X Y dY Y0 dX0 wsb scrb
  refine ⟨fun s hs => ?_, fun hok => ?_, ?_, fun hd d st => ?_,
    fun hd d st => ?_⟩
  · obtain ⟨h1, -⟩ := grad_construct_ok hs
    subst h1
    exact ⟨rfl, rfl⟩
  · obtain ⟨hf, dX1, hdo, -⟩ := grad_run_ok hok
    obtain ⟨opd, hopd, -, -, -, -, -, -, hop1, -, htr⟩ := grad_doRun_ok_elim hdo
    have hbw : opd.bwdLRNWs_ = gop.bwdLRNWs_ := by
      by_cases hd : dY.dims = gop.miopen_input_dims_ <;>
        simp [hd] at hopd <;> subst hopd <;> rfl
    have hbs : opd.bwdLRNScratch_ = gop.bwdLRNScratch_ := by
      by_cases hd : dY.dims = gop.miopen_input_dims_ <;>
        simp [hd] at hopd <;> subst hopd <;> rfl
    have hdesc : gop1.data_desc_ = opd.data_desc_ := by rw [hop1]
    rw [grad_run_trace lib gop X Y dY dX0 hf, htr]
    refine ⟨fun hw => ?_, fun hsc => ?_, fun hw => ?_, fun hsc => ?_⟩
    · rw [hw] at hbw
      refine ⟨⟨_, by rw [hop1, hbw]; rfl⟩, fun sz st hmem => ?_⟩
      rw [hbw, hbs] at hmem
      rcases hscx : gop.bwdLRNScratch_ with _ | b <;>
        by_cases hd : dY.dims = gop.miopen_input_dims_ <;>
        simp_all
    · rw [hsc] at hbs
      refine ⟨⟨_, by rw [hop1, hbs]; rfl⟩, fun sz st hmem => ?_⟩
      rw [hbs, hbw] at hmem
      rcases hwx : gop.bwdLRNWs_ with _ | b <;>
        by_cases hd : dY.dims = gop.miopen_input_dims_ <;>
        simp_all
    · rw [hw] at hbw
      refine ⟨(lib.workSpaceSize opd.data_desc_).2, _,
        by rw [hop1, hbw]; rfl, ?_, ?_⟩
      · rw [hdesc]
        simp
      · rw [hbw]
        simp
    · rw [hsc] at hbs
      refine ⟨_, by rw [hop1, hbs]; rfl, ?_⟩
      rw [hbs]
      simp
  · intro e he
    have hk := grad_run_kinds lib gop X Y dY dX0 e he
    simp only [List.mem_cons, List.not_mem_nil, or_false] at hk
    rcases hk with hk | hk | hk | hk | hk <;> simp [hk]
  · by_cases hf : X.dtype = DType.float
    · rw [fwd_run_trace lib fop X Y0 hf]
      exact fwd_doRun_no_set4d_on_cache_hit lib fop X (Y0.resizeLike X) hd d st
    · unfold MIOPEN_LRNOP.RunOnDevice
      simp [hf]
  · by_cases hf : dY.dtype = DType.float
    · rw [grad_run_trace lib gop X Y dY dX0 hf]
      exact grad_doRun_no_set4d_on_cache_hit lib gop X Y dY (dX0.resizeLike dY)
        hd d st
    · unfold MIOPENLRNGradientOp.RunOnDevice
      simp [hf]

/-- Concrete instantiation of
`c10_buffers_allocated_once_descriptor_cached`: a freshly constructed
gradient operator (both buffers null) allocates a workspace of the queried
8 bytes and a scratch of `4 * 4 = 16` bytes on its first successful run. -/
theorem c10_buffers_witness :
    gopEx.bwdLRNWs_ = none ∧ gopEx.bwdLRNScratch_ = none ∧
    (MIOPENLRNGradientOp.RunOnDevice okLib gopEx tX tY tdY tOut).result =
      Except.ok
        { gopEx with
            data_desc_ := some ⟨DType.float, 1, 1, 2, 2⟩
            miopen_input_dims_ := [1, 1, 2, 2]
            bwdLRNWs_ := some ⟨8, [7, 7]⟩
            bwdLRNScratch_ := some ⟨16, [2, 3, 4, 5]⟩ } ∧
    (∃ d, ({ gopEx with
        data_desc_ := some ⟨DType.float, 1, 1, 2, 2⟩
        miopen_input_dims_ := [1, 1, 2, 2]
        bwdLRNWs_ := some ⟨8, [7, 7]⟩
        bwdLRNScratch_ := some ⟨16, [2, 3, 4, 5]⟩ } :
      MIOPENLRNGradientOp).bwdLRNScratch_ = some ⟨tX.numElems * 4, d⟩ ∧
      Event.hipMallocEv Role.scratch (tX.numElems * 4) 0 ∈
        (MIOPENLRNGradientOp.RunOnDevice okLib gopEx tX tY tdY tOut).trace) :=
  ⟨rfl, rfl, rfl,
    (c10_buffers_allocated_once_descriptor_cached okLib argsEx fopEx gopEx _
        tX tY tdY tOut tOut ⟨8, [7, 7]⟩ ⟨16, [2, 3, 4, 5]⟩).2.1 rfl |>.2.2.2
      rfl⟩

/-- The forward vendor call the forward operator makes when run on `okLib`
from a fresh construction with input `tX`. -/
def fwdEvEx : Event :=
  Event.lrnFwd (some ⟨LRNMode.crossChannel, 5, 2, 3, 7⟩) 2
    (some ⟨DType.float, 1, 1, 2, 2⟩) [1, 2, 3, 4] 3
    (some ⟨DType.float, 1, 1, 2, 2⟩) Role.outY false Role.null 0

/-- Concrete instantiation of `c5_inputs_read_only_outputs_written`: the
forward call of a concrete run is in the trace, its only write destination
is the declared output `Y`, and that destination is none of the inputs. -/
theorem c5_inputs_read_only_witness :
    fwdEvEx ∈ (MIOPEN_LRNOP.RunOnDevice okLib fopEx tX tOut).trace ∧
    Role.outY ∈ fwdEvEx.writes ∧
    (Role.outY ≠ Role.inX ∧ Role.outY ≠ Role.inY ∧ Role.outY ≠ Role.indY) :=
  ⟨by decide, by decide,
    (c5_inputs_read_only_outputs_written okLib fopEx gopEx tX tY tdY tOut
      tOut).2.2.1 fwdEvEx (by decide) Role.outY (by decide)⟩

end Caffe2MiopenLRN
